import Mathlib

/-!
# AIPR-2: synchronized playback, the effects pipeline and the WAV encoder

A shallow embedding of `src/js/player.js` (the synchronized timeline scheduler
and the playback engine around it), of `src/js/tts.js` (the radio-filter
pipeline and `audioBufferToBlob`) and of the handlers of `src/js/broadcast.js`
and `src/js/timeline.js` that add, move and reorder timeline items and take a
broadcast live.

Modelling conventions.

* A JavaScript number is an exact rational (`ℚ`) or `NaN` (`JSNumber`).
  IEEE-754 rounding, signed zeros and infinities are outside the model, so
  every statement below is about the arithmetic the source text denotes.
* Module-level variables of `player.js` and `state.listeningToBroadcast` of
  `app.js` are the fields of `PlayerState`; every function that touches them
  takes the state and returns the new one.
* `Date.now()` is an explicit argument (`dateNow`, integer milliseconds), and
  `broadcast.started_at` is the millisecond value `new Date(...).getTime()`
  yields for it.
* `console.*` output and DOM updates (`updateNowPlaying`, `updateProgress`)
  carry no information the module reads back and are not modelled.
* `setTimeout` / `setInterval` append a pending `Timer` to the state.
* Web Audio objects are the browser's: the module's requests to them are
  recorded, their answers (random values, rendered samples, blob URLs) are
  parameters.
-/

namespace AIPR

/-! ## Numbers -/

/-- A JavaScript number: an exact rational value or `NaN`. -/
inductive JSNumber where
  | val (q : ℚ)
  | NaN
  deriving DecidableEq

/-- Truncation toward zero (the integer quotient used by the `%` operator). -/
def trunc (q : ℚ) : ℤ :=
  if q < 0 then ⌈q⌉ else ⌊q⌋

/-- The JavaScript remainder `n % d`: `n - d * q` where `q` is `n / d` truncated
toward zero, so the result has the sign of the dividend; `NaN` when `d` is 0. -/
def jsRem (n d : ℚ) : JSNumber :=
  if d = 0 then JSNumber.NaN else JSNumber.val (n - d * (trunc (n / d) : ℚ))

/-- The comparison `p < x`; every comparison with `NaN` is false. -/
def JSNumber.lt : JSNumber → ℚ → Bool
  | JSNumber.val p, x => decide (p < x)
  | JSNumber.NaN, _ => false

/-- The comparison `p >= x`; every comparison with `NaN` is false. -/
def JSNumber.ge : JSNumber → ℚ → Bool
  | JSNumber.val p, x => decide (x ≤ p)
  | JSNumber.NaN, _ => false

/-- The difference `p - x`. -/
def JSNumber.sub : JSNumber → ℚ → JSNumber
  | JSNumber.val p, x => JSNumber.val (p - x)
  | JSNumber.NaN, _ => JSNumber.NaN

/-- The sum `x + p`. -/
def JSNumber.addLeft (x : ℚ) : JSNumber → JSNumber
  | JSNumber.val p => JSNumber.val (x + p)
  | JSNumber.NaN => JSNumber.NaN

/-- The value of `Math.floor` on a number. -/
def JSNumber.floor : JSNumber → JSNumber
  | JSNumber.val p => JSNumber.val ((⌊p⌋ : ℤ) : ℚ)
  | JSNumber.NaN => JSNumber.NaN

/-! ## Data model -/

/-- A timeline item as built in `broadcast.js` (`trackItem`, `ttsItem`) and
given an `id` by `updateTimeline`. Fields a variant does not set are `none`
or the zero value. -/
structure TimelineItem where
  id : String
  type : String
  duration : ℚ
  videoId : String
  title : String
  thumbnail : String
  trimStart : ℚ
  trimEnd : ℚ
  fadeIn : ℚ
  fadeOut : ℚ
  text : String
  reverb : String
  audioUrl : Option String
  deriving DecidableEq

/-- A broadcast row as read by `player.js`. `timeline_data = none` is a missing
(null / undefined) timeline. -/
structure Broadcast where
  id : String
  name : String
  started_at : ℤ
  is_looping : Bool
  timeline_data : Option (List TimelineItem)
  deriving DecidableEq

/-- The object `new YT.Player(...)` is created with. -/
structure YTPlayer where
  videoId : String
  start : JSNumber
  broadcast : Broadcast
  deriving DecidableEq

/-- The `Audio` element held in `ttsAudioElement`. -/
structure AudioElement where
  src : String
  currentTime : JSNumber
  paused : Bool
  onended : Option Broadcast
  deriving DecidableEq

/-- What a pending timer callback will do when it fires. -/
inductive TimerAction where
  | resync (broadcast : Broadcast)
  | retryYouTube (item : TimelineItem) (startOffset : JSNumber) (broadcast : Broadcast)
  | progress (item : TimelineItem) (currentTime : JSNumber)
  deriving DecidableEq

/-- A pending `setTimeout` / `setInterval` registration. -/
structure Timer where
  id : Nat
  delayMs : Nat
  repeating : Bool
  action : TimerAction
  deriving DecidableEq

/-- The mutable state `player.js` works on. -/
structure PlayerState where
  listeningToBroadcast : Option String
  currentBroadcastId : Option String
  playbackInterval : Option Nat
  youtubePlayer : Option YTPlayer
  ttsAudioElement : Option AudioElement
  youtubeReady : Bool
  timers : List Timer
  nextTimerId : Nat
  deriving DecidableEq

/-- How one call of `startSyncedPlayback` returns. `play index item offset`
stands for the call `playItem(item, offset, broadcast)`; `index` is the
position of `item` in the timeline, recorded for the statements below (the
source does not keep it). -/
inductive Outcome where
  | noTimelineData
  | ended
  | notFound
  | play (index : Nat) (item : TimelineItem) (itemStartTime : JSNumber)
  deriving DecidableEq

/-! ## player.js -/

/-- Registers a timer and returns its id with the new state. -/
def setTimer (s : PlayerState) (delayMs : Nat) (repeating : Bool) (action : TimerAction) :
    Nat × PlayerState :=
  (s.nextTimerId,
    { s with
      timers := s.timers ++ [{ id := s.nextTimerId, delayMs := delayMs,
                               repeating := repeating, action := action }],
      nextTimerId := s.nextTimerId + 1 })

/-- The effect of `clearInterval(id)`. -/
def clearTimer (s : PlayerState) (id : Nat) : PlayerState :=
  { s with timers := s.timers.filter (fun t => t.id != id) }

/-- Transcription of `stopPlayback` (player.js 274-297). -/
def stopPlayback (s : PlayerState) : PlayerState :=
  let s1 : PlayerState :=
    match s.youtubePlayer with
    | some _ => { s with youtubePlayer := none }
    | none => s
  let s2 : PlayerState :=
    match s1.ttsAudioElement with
    | some a => { s1 with ttsAudioElement := some { a with paused := true, src := "" } }
    | none => s1
  match s2.playbackInterval with
  | some id => { clearTimer s2 id with playbackInterval := none }
  | none => s2

/-- Transcription of `startProgressMonitoring` (player.js 226-243). -/
def startProgressMonitoring (s : PlayerState) (item : TimelineItem) (startOffset : JSNumber) :
    PlayerState :=
  let r := setTimer s 250 true (TimerAction.progress item startOffset)
  { r.2 with playbackInterval := some r.1 }

/-- Transcription of `handleItemEnded` (player.js 214-223): schedules the
re-sync callback after 100 ms. -/
def handleItemEnded (s : PlayerState) (broadcast : Broadcast) : PlayerState :=
  (setTimer s 100 false (TimerAction.resync broadcast)).2

/-- Transcription of `playYouTubeTrack` (player.js 143-183). -/
def playYouTubeTrack (s : PlayerState) (item : TimelineItem) (startOffset : JSNumber)
    (broadcast : Broadcast) : PlayerState :=
  if !s.youtubeReady then
    (setTimer s 500 false (TimerAction.retryYouTube item startOffset broadcast)).2
  else
    let player : YTPlayer :=
      { videoId := item.videoId,
        start := (JSNumber.addLeft item.trimStart startOffset).floor,
        broadcast := broadcast }
    let s1 : PlayerState := { s with youtubePlayer := some player }
    startProgressMonitoring s1 item startOffset

/-- Transcription of `playTTSTrack` (player.js 186-211). -/
def playTTSTrack (s : PlayerState) (item : TimelineItem) (startOffset : JSNumber)
    (broadcast : Broadcast) : PlayerState :=
  match item.audioUrl with
  | none => handleItemEnded s broadcast
  | some url =>
    if url = "" then handleItemEnded s broadcast
    else
      let a : AudioElement :=
        match s.ttsAudioElement with
        | some a => a
        | none => { src := "", currentTime := JSNumber.val 0, paused := true, onended := none }
      let a1 : AudioElement :=
        { a with src := url, currentTime := startOffset, paused := false,
                 onended := some broadcast }
      let s1 : PlayerState := { s with ttsAudioElement := some a1 }
      startProgressMonitoring s1 item startOffset

/-- Transcription of `playItem` (player.js 132-140). -/
def playItem (s : PlayerState) (item : TimelineItem) (startOffset : JSNumber)
    (broadcast : Broadcast) : PlayerState :=
  let s1 := stopPlayback s
  if item.type = "youtube" then playYouTubeTrack s1 item startOffset broadcast
  else if item.type = "tts" then playTTSTrack s1 item startOffset broadcast
  else s1

/-- The `reduce` of player.js 92: the sum of the item durations, from 0. -/
def totalDuration (items : List TimelineItem) : ℚ :=
  items.foldl (fun sum item => sum + item.duration) 0

/-- The value of `elapsed` (player.js 87-89), in seconds. -/
def elapsedSeconds (broadcast : Broadcast) (dateNow : ℤ) : ℚ :=
  let startTime := broadcast.started_at
  let currentTime := dateNow
  ((currentTime - startTime : ℤ) : ℚ) / 1000

/-- Lines 94-101 of player.js: the position in the timeline, or `none` when the
function logs 'Broadcast has ended' and returns. -/
def timelinePosition (is_looping : Bool) (elapsed total : ℚ) : Option JSNumber :=
  let position := JSNumber.val elapsed
  if is_looping then some (jsRem elapsed total)
  else if position.ge total then none
  else some position

/-- The `for (const item of broadcast.timeline_data)` loop of player.js
108-115, started with accumulated offset `currentOffset`; `index` counts the
items passed. Returns the item found with `itemStartTime`, or `none` when the
loop runs off the end (`currentItem` stays null). -/
def findCurrentItem (position : JSNumber) :
    List TimelineItem → ℚ → Nat → Option (Nat × TimelineItem × JSNumber)
  | [], _, _ => none
  | item :: rest, currentOffset, index =>
    if position.lt (currentOffset + item.duration) then
      some (index, item, position.sub currentOffset)
    else
      findCurrentItem position rest (currentOffset + item.duration) (index + 1)

/-- Transcription of `startSyncedPlayback` (player.js 81-129). -/
def startSyncedPlayback (s : PlayerState) (broadcast : Broadcast) (dateNow : ℤ) :
    Outcome × PlayerState :=
  match broadcast.timeline_data with
  | none => (Outcome.noTimelineData, s)
  | some [] => (Outcome.noTimelineData, s)
  | some (first :: rest) =>
    let items := first :: rest
    let elapsed := elapsedSeconds broadcast dateNow
    match timelinePosition broadcast.is_looping elapsed (totalDuration items) with
    | none => (Outcome.ended, s)
    | some position =>
      match findCurrentItem position items 0 0 with
      | none => (Outcome.notFound, s)
      | some (index, currentItem, itemStartTime) =>
        (Outcome.play index currentItem itemStartTime,
          playItem s currentItem itemStartTime broadcast)

/-- The timeline `startSyncedPlayback` walks: empty when `timeline_data` is
missing. -/
def timelineOf (broadcast : Broadcast) : List TimelineItem :=
  match broadcast.timeline_data with
  | none => []
  | some items => items

/-- The index and offset an outcome resolved, with the item itself dropped. -/
def Outcome.resolved : Outcome → Option (Nat × JSNumber)
  | Outcome.play index _ itemStartTime => some (index, itemStartTime)
  | _ => none

/-! ## player.js: sessions, events and timers -/

/-- The sum `p + x`. -/
def JSNumber.add : JSNumber → ℚ → JSNumber
  | JSNumber.val p, x => JSNumber.val (p + x)
  | JSNumber.NaN, _ => JSNumber.NaN

/-- Transcription of `stopListening` (player.js 67-78). -/
def stopListening (s : PlayerState) : PlayerState :=
  stopPlayback { s with listeningToBroadcast := none }

/-- Transcription of `tuneInToBroadcast` (player.js 43-64). The test
`if (state.listeningToBroadcast)` holds for an id that is not the empty
string. -/
def tuneInToBroadcast (s : PlayerState) (broadcast : Broadcast) (dateNow : ℤ) : PlayerState :=
  if s.listeningToBroadcast = some broadcast.id then s
  else
    let s1 : PlayerState :=
      match s.listeningToBroadcast with
      | some id => if id = "" then s else stopListening s
      | none => s
    let s2 : PlayerState := { s1 with listeningToBroadcast := some broadcast.id }
    (startSyncedPlayback s2 broadcast dateNow).2

/-- Transcription of `startBroadcastPlayback` (player.js 300-303). -/
def startBroadcastPlayback (s : PlayerState) (broadcast : Broadcast) (dateNow : ℤ) :
    PlayerState :=
  let s1 : PlayerState := { s with currentBroadcastId := some broadcast.id }
  (startSyncedPlayback s1 broadcast dateNow).2

/-- Transcription of `stopBroadcastPlayback` (player.js 306-309). -/
def stopBroadcastPlayback (s : PlayerState) : PlayerState :=
  { stopPlayback s with currentBroadcastId := none }

/-- The callback `window.onYouTubeIframeAPIReady` (player.js 28-31). -/
def onYouTubeIframeAPIReady (s : PlayerState) : PlayerState :=
  { s with youtubeReady := true }

/-- The `onended` handler of the audio element (player.js 205-207). -/
def ttsEnded (s : PlayerState) : PlayerState :=
  match s.ttsAudioElement with
  | some a =>
    match a.onended with
    | some broadcast => handleItemEnded s broadcast
    | none => s
  | none => s

/-- The `onStateChange` handler of the YouTube player on `ENDED`
(player.js 172-177). -/
def youtubeEnded (s : PlayerState) : PlayerState :=
  match s.youtubePlayer with
  | some player => handleItemEnded s player.broadcast
  | none => s

/-- The callback of a pending timer runs: the re-sync callback of
`handleItemEnded` (player.js 218-222), the retry of `playYouTubeTrack`
(player.js 146), or one tick of the progress interval (player.js 232-242),
whose local `currentTime` is kept in the timer. A timeout is spent once it has
fired. -/
def fireTimer (s : PlayerState) (timer : Timer) (dateNow : ℤ) : PlayerState :=
  match timer.action with
  | TimerAction.resync broadcast =>
    let s1 : PlayerState := { s with timers := s.timers.filter (fun t => t.id != timer.id) }
    if s1.listeningToBroadcast = some broadcast.id then
      (startSyncedPlayback s1 broadcast dateNow).2
    else s1
  | TimerAction.retryYouTube item startOffset broadcast =>
    let s1 : PlayerState := { s with timers := s.timers.filter (fun t => t.id != timer.id) }
    playYouTubeTrack s1 item startOffset broadcast
  | TimerAction.progress item currentTime =>
    let currentTime := currentTime.add (250 / 1000)
    let s1 : PlayerState :=
      { s with timers := s.timers.map (fun t =>
          if t.id = timer.id then { t with action := TimerAction.progress item currentTime }
          else t) }
    if currentTime.ge item.duration then
      match s1.playbackInterval with
      | some id => clearTimer s1 id
      | none => s1
    else s1

/-- What can happen to the player: a call of one of its entry points, a
browser event, or a pending timer (named by its id) firing. -/
inductive PlayerEvent where
  | tuneIn (broadcast : Broadcast) (dateNow : ℤ)
  | stopListening
  | startBroadcast (broadcast : Broadcast) (dateNow : ℤ)
  | stopBroadcast
  | apiReady
  | ttsEnded
  | youtubeEnded
  | timerFires (id : Nat) (dateNow : ℤ)

/-- The state after an event. A timer that is not pending does not fire. -/
def applyEvent (s : PlayerState) : PlayerEvent → PlayerState
  | PlayerEvent.tuneIn broadcast dateNow => tuneInToBroadcast s broadcast dateNow
  | PlayerEvent.stopListening => stopListening s
  | PlayerEvent.startBroadcast broadcast dateNow => startBroadcastPlayback s broadcast dateNow
  | PlayerEvent.stopBroadcast => stopBroadcastPlayback s
  | PlayerEvent.apiReady => onYouTubeIframeAPIReady s
  | PlayerEvent.ttsEnded => ttsEnded s
  | PlayerEvent.youtubeEnded => youtubeEnded s
  | PlayerEvent.timerFires id dateNow =>
    match s.timers.find? (fun t => t.id == id) with
    | some timer => fireTimer s timer dateNow
    | none => s

/-- The state after a sequence of events. -/
def runEvents (s : PlayerState) (events : List PlayerEvent) : PlayerState :=
  events.foldl applyEvent s

/-! ## tts.js: the WAV encoder -/

/-- An `AudioBuffer`: `getChannelData channel i` is sample `i` of the channel.
Samples are finite numbers (a `Float32Array` entry that is not `NaN` or
infinite is a dyadic rational, and both products below are exact in double
precision). -/
structure AudioBuffer where
  numberOfChannels : Nat
  length : Nat
  sampleRate : Nat
  getChannelData : Nat → Nat → ℚ

/-- The byte at an offset of a byte array. -/
def byteAt (view : List Nat) (offset : Nat) : Nat :=
  view.getD offset 0

/-- The effect of `view.setUint8(offset, value)`. -/
def setUint8 (view : List Nat) (offset value : Nat) : List Nat :=
  view.set offset (value % 256)

/-- The effect of `view.setUint16(offset, value, true)` (little-endian). -/
def setUint16 (view : List Nat) (offset value : Nat) : List Nat :=
  let v := value % 65536
  (view.set offset (v % 256)).set (offset + 1) (v / 256)

/-- The effect of `view.setUint32(offset, value, true)` (little-endian). -/
def setUint32 (view : List Nat) (offset value : Nat) : List Nat :=
  let v := value % 4294967296
  (((view.set offset (v % 256)).set (offset + 1) (v / 256 % 256)).set (offset + 2)
    (v / 65536 % 256)).set (offset + 3) (v / 16777216)

/-- The 16-bit pattern `setInt16` stores for a number: the value truncated
toward zero, taken modulo 2^16. -/
def toUint16 (value : ℚ) : Nat :=
  (trunc value % 65536).toNat

/-- The effect of `view.setInt16(offset, value, true)` (little-endian). -/
def setInt16 (view : List Nat) (offset : Nat) (value : ℚ) : List Nat :=
  let v := toUint16 value
  (view.set offset (v % 256)).set (offset + 1) (v / 256)

/-- The loop of the `writeString` closure over the characters still to write. -/
def writeChars (view : List Nat) (offset : Nat) : List Char → List Nat
  | [] => view
  | c :: cs => writeChars (setUint8 view offset c.toNat) (offset + 1) cs

/-- The closure `writeString` of `audioBufferToBlob` (tts.js 213-217). -/
def writeString (view : List Nat) (offset : Nat) (string : String) : List Nat :=
  writeChars view offset string.toList

/-- The body of the inner loop (tts.js 242-244); the accumulator is the byte
array with the running `offset`. -/
def writeSample (buffer : AudioBuffer) (i : Nat) (acc : List Nat × Nat) (channel : Nat) :
    List Nat × Nat :=
  let sample : ℚ := max (-1) (min 1 (buffer.getChannelData channel i))
  (setInt16 acc.1 acc.2 (if sample < 0 then sample * 0x8000 else sample * 0x7FFF), acc.2 + 2)

/-- The inner loop over the channels of frame `i` (tts.js 241-245). -/
def writeFrame (buffer : AudioBuffer) (acc : List Nat × Nat) (i : Nat) : List Nat × Nat :=
  (List.range buffer.numberOfChannels).foldl (writeSample buffer i) acc

/-- The array buffer of `audioBufferToBlob` after the '// WAV header' writes
(tts.js 207-231): `44 + length` zero bytes, then the header fields. -/
def wavHeader (buffer : AudioBuffer) : List Nat :=
  let numberOfChannels := buffer.numberOfChannels
  let length := buffer.length * numberOfChannels * 2
  let view := List.replicate (44 + length) 0
  let view := writeString view 0 "RIFF"
  let view := setUint32 view 4 (36 + length)
  let view := writeString view 8 "WAVE"
  let view := writeString view 12 "fmt "
  let view := setUint32 view 16 16
  let view := setUint16 view 20 1
  let view := setUint16 view 22 numberOfChannels
  let view := setUint32 view 24 buffer.sampleRate
  let view := setUint32 view 28 (buffer.sampleRate * numberOfChannels * 2)
  let view := setUint16 view 32 (numberOfChannels * 2)
  let view := setUint16 view 34 16
  let view := writeString view 36 "data"
  setUint32 view 40 length

/-- Transcription of `audioBufferToBlob` (tts.js 206-249): the header writes,
then the '// Audio data' loops starting at `offset = 44`; the result is the
content of the array buffer the blob is made of. -/
def audioBufferToBlob (buffer : AudioBuffer) : List Nat :=
  ((List.range buffer.length).foldl (writeFrame buffer) (wavHeader buffer, 44)).1

/-! ## Reading a canonical WAV file -/

/-- A little-endian unsigned 16-bit field. -/
def getUint16 (bytes : List Nat) (offset : Nat) : Nat :=
  byteAt bytes offset + 256 * byteAt bytes (offset + 1)

/-- A little-endian unsigned 32-bit field. -/
def getUint32 (bytes : List Nat) (offset : Nat) : Nat :=
  byteAt bytes offset + 256 * byteAt bytes (offset + 1) + 65536 * byteAt bytes (offset + 2) +
    16777216 * byteAt bytes (offset + 3)

/-- A little-endian signed (two's complement) 16-bit field. -/
def getInt16 (bytes : List Nat) (offset : Nat) : ℤ :=
  if getUint16 bytes offset < 32768 then (getUint16 bytes offset : ℤ)
  else (getUint16 bytes offset : ℤ) - 65536

/-- The PCM content of a WAV file. -/
structure DecodedWav where
  numberOfChannels : Nat
  sampleRate : Nat
  length : Nat
  sample : Nat → Nat → ℤ

/-- A reader for the canonical layout of section 6 of the specification
(44-byte header, 16-bit PCM): channel count at bytes 22-23, sample rate at
24-27, data length at 40-43, interleaved samples from byte 44; `sample i c` is
frame `i` of channel `c`. -/
def decodeCanonicalWav (bytes : List Nat) : DecodedWav :=
  let channels := getUint16 bytes 22
  { numberOfChannels := channels,
    sampleRate := getUint32 bytes 24,
    length := getUint32 bytes 40 / (2 * channels),
    sample := fun i c => getInt16 bytes (44 + 2 * (i * channels + c)) }

/-- The 16-bit value of a sample: clamped to [-1, 1], scaled by 32768 when
negative and by 32767 otherwise, truncated toward zero. -/
def pcm16 (s : ℚ) : ℤ :=
  trunc (max (-1) (min 1 s) * (if s < 0 then 32768 else 32767))

/-- The two bytes of a little-endian unsigned 16-bit field holding `v`. -/
def le16 (v : Nat) : List Nat :=
  [v % 256, v / 256]

/-- The four bytes of a little-endian unsigned 32-bit field holding `v`. -/
def le32 (v : Nat) : List Nat :=
  [v % 256, v / 256 % 256, v / 65536 % 256, v / 16777216]

/-- The 44 header bytes of section 6 of the specification for a file with the
given channel count, sample rate and number of frames. -/
def canonicalHeader (channels sampleRate frames : Nat) : List Nat :=
  "RIFF".toList.map Char.toNat ++ le32 (36 + 2 * frames * channels) ++
  "WAVE".toList.map Char.toNat ++
  "fmt ".toList.map Char.toNat ++ le32 16 ++ le16 1 ++ le16 channels ++ le32 sampleRate ++
  le32 (sampleRate * channels * 2) ++ le16 (channels * 2) ++ le16 16 ++
  "data".toList.map Char.toNat ++ le32 (2 * frames * channels)

/-! ## tts.js: the effects pipeline

The Web Audio objects `tts.js` drives are the browser's. What the module asks
of them is recorded (`RadioFilterGraph`); what they answer is taken from a
`Browser` value: the successive results of `Math.random()`, the samples an
offline context renders for a graph, and the URL made for a blob. -/

/-- The attribute `AudioBuffer.duration`: frames over sample rate, in seconds. -/
def AudioBuffer.duration (buffer : AudioBuffer) : ℚ :=
  (buffer.length : ℚ) / (buffer.sampleRate : ℚ)

/-- What the browser supplies to `tts.js`: the successive values of
`Math.random()`, the URL `URL.createObjectURL` makes for a blob, and the
message of the exception thrown for a zero-length buffer. -/
structure Browser where
  random : Nat → ℚ
  createObjectURL : List Nat → String
  zeroLengthMessage : String

/-- The value of `Math.round`: the nearest integer, halves rounded up. -/
def jsRound (q : ℚ) : ℤ :=
  ⌊q + 1 / 2⌋

/-- Transcription of `makeBitCrusherCurve` (tts.js 145-156). -/
def makeBitCrusherCurve (bits : Nat) : List ℚ :=
  let samples : Nat := 256
  let step : ℚ := (1 / 2) ^ bits
  (List.range samples).map (fun (i : Nat) =>
    let x : ℚ := ((i : ℚ) / (samples : ℚ)) * 2 - 1
    (jsRound (x / step) : ℚ) * step)

/-- The `switch` of `createReverbImpulse` (tts.js 163-177): the values of
`length` and `decay`. -/
def reverbParameters (sampleRate : ℚ) (intensity : String) : ℚ × Nat :=
  if intensity = "subtle" then (sampleRate * (1 / 2), 2)
  else if intensity = "heavy" then (sampleRate * 2, 4)
  else (sampleRate * 1, 3)

/-- Transcription of `createReverbImpulse` (tts.js 159-190) for a context of
the given sample rate. The buffer made by `createBuffer(2, length, ...)` holds
`⌊length⌋` frames. Iteration `i` of the loop calls `Math.random()` twice, for
the left and then the right channel: these are calls `2 * i` and `2 * i + 1`
of the function. -/
def createReverbImpulse (random : Nat → ℚ) (sampleRate : Nat) (intensity : String) :
    AudioBuffer :=
  let length : ℚ := (reverbParameters sampleRate intensity).1
  let decay : Nat := (reverbParameters sampleRate intensity).2
  { numberOfChannels := 2,
    length := ⌊length⌋₊,
    sampleRate := sampleRate,
    getChannelData := fun channel i =>
      if i < ⌊length⌋₊ then
        let n : ℚ := length - i
        if channel = 0 then (random (2 * i) * 2 - 1) * (n / length) ^ decay
        else if channel = 1 then (random (2 * i + 1) * 2 - 1) * (n / length) ^ decay
        else 0
      else 0 }

/-- Transcription of `getReverbMix` (tts.js 193-203). -/
def getReverbMix (intensity : String) : ℚ :=
  if intensity = "subtle" then 1 / 10
  else if intensity = "heavy" then 4 / 10
  else 2 / 10

/-- The offline context and node graph `applyRadioFilter` sets up
(tts.js 78-125): the arguments of `new OfflineAudioContext(...)`, the source
buffer, the two filter frequencies, the wave shaper, the convolver buffer and
the two gains. The connections are those of lines 114-125: source, highpass,
lowpass, waveshaper; the waveshaper feeds `dryGain` and, through the
convolver, `wetGain`; both gains feed the destination. -/
structure RadioFilterGraph where
  numberOfChannels : Nat
  length : Nat
  sampleRate : Nat
  sourceBuffer : AudioBuffer
  lowpassFrequency : ℚ
  highpassFrequency : ℚ
  curve : List ℚ
  oversample : String
  convolverBuffer : AudioBuffer
  dryGain : ℚ
  wetGain : ℚ

/-- The value `applyRadioFilter` resolves to. -/
structure RadioFilterResult where
  buffer : AudioBuffer
  url : String
  duration : ℚ

/-- The buffer `audioBuffer` of `applyRadioFilter` (tts.js 67-76): one channel
at 22050 Hz with the raw samples converted to float. -/
def radioFilterSource (samBuffer : List Nat) : AudioBuffer :=
  let sampleRate := 22050
  { numberOfChannels := 1,
    length := samBuffer.length,
    sampleRate := sampleRate,
    getChannelData := fun channel i =>
      if channel = 0 ∧ i < samBuffer.length then ((samBuffer.getD i 0 : ℚ) - 128) / 128
      else 0 }

/-- The graph built by `applyRadioFilter` (tts.js 78-125). -/
def radioFilterGraph (browser : Browser) (samBuffer : List Nat) (reverbIntensity : String) :
    RadioFilterGraph :=
  let sampleRate := 22050
  let audioBuffer := radioFilterSource samBuffer
  let reverbMix := getReverbMix reverbIntensity
  { numberOfChannels := 1,
    length := audioBuffer.length,
    sampleRate := sampleRate,
    sourceBuffer := audioBuffer,
    lowpassFrequency := 3000,
    highpassFrequency := 300,
    curve := makeBitCrusherCurve 8,
    oversample := "none",
    convolverBuffer := createReverbImpulse browser.random sampleRate reverbIntensity,
    dryGain := 1 - reverbMix,
    wetGain := reverbMix }

/-- The sample the destination of the graph receives when the wave shaper
puts out `dry` and the convolver `wet`: each gain node scales its input and
the destination adds its two connections (tts.js 119-125). -/
def destinationMix (graph : RadioFilterGraph) (dry wet : ℚ) : ℚ :=
  dry * graph.dryGain + wet * graph.wetGain

/-- Transcription of `applyRadioFilter` (tts.js 64-142). `rendered graph` gives
the samples `startRendering()` produces; the rendered buffer has the channel
count, length and sample rate the offline context was created with.
`createBuffer` and `new OfflineAudioContext` throw on a zero length: the
result is then the exception. -/
def applyRadioFilter (browser : Browser) (rendered : RadioFilterGraph → Nat → ℚ)
    (samBuffer : List Nat) (reverbIntensity : String) : Except String RadioFilterResult :=
  if samBuffer.length = 0 then Except.error browser.zeroLengthMessage
  else
    let graph := radioFilterGraph browser samBuffer reverbIntensity
    let renderedBuffer : AudioBuffer :=
      { numberOfChannels := graph.numberOfChannels,
        length := graph.length,
        sampleRate := graph.sampleRate,
        getChannelData := fun channel i =>
          if channel < graph.numberOfChannels ∧ i < graph.length then rendered graph i else 0 }
    let audioBlob := audioBufferToBlob renderedBuffer
    let url := browser.createObjectURL audioBlob
    Except.ok { buffer := renderedBuffer, url := url, duration := renderedBuffer.duration }

/-- The synthesizer as `generateTTS` meets it: whether the `SamJs` global is
defined, and the value read from `sam.buf8` (tts.js 35) as the test of line 38
finds it after `sam.Speak(text)` (`none` when it is missing). -/
structure Synthesizer where
  loaded : Bool
  buf8 : String → Option (List Nat)

/-- The object `generateTTS` returns for the timeline. -/
structure TTSAudio where
  url : String
  duration : ℚ

/-- One run of `generateTTS`: the value returned (`none` is `null`) and what
the run did on the way. -/
structure TTSRun where
  result : Option TTSAudio
  speakCalls : Nat
  filterCalls : Nat
  alerts : List String
  previewPlayed : Bool

/-- Transcription of `generateTTS` (tts.js 16-61). The `catch` block turns
every exception of the `try` block into an alert and a `null` result. -/
def generateTTS (browser : Browser) (rendered : RadioFilterGraph → Nat → ℚ)
    (synth : Synthesizer) (text : String) (reverbIntensity : String) (previewOnly : Bool) :
    TTSRun :=
  if !synth.loaded then
    { result := none, speakCalls := 0, filterCalls := 0,
      alerts := ["TTS library not loaded. Please refresh the page."], previewPlayed := false }
  else
    let failed : TTSRun :=
      { result := none, speakCalls := 1, filterCalls := 0,
        alerts := ["Error generating TTS: Failed to generate speech"], previewPlayed := false }
    match synth.buf8 text with
    | none => failed
    | some buf8 =>
      if buf8.length = 0 then failed
      else
        match applyRadioFilter browser rendered buf8 reverbIntensity with
        | Except.error message =>
          { result := none, speakCalls := 1, filterCalls := 1,
            alerts := ["Error generating TTS: " ++ message], previewPlayed := false }
        | Except.ok audioData =>
          if previewOnly then
            { result := none, speakCalls := 1, filterCalls := 1, alerts := [],
              previewPlayed := true }
          else
            { result := some { url := audioData.url, duration := audioData.duration },
              speakCalls := 1, filterCalls := 1, alerts := [], previewPlayed := false }

/-! ## timeline.js and broadcast.js: adding items -/

/-- Transcription of `updateTimeline` (timeline.js 7-12): the item gets the
fresh id and is pushed onto `timelineItems`. -/
def updateTimeline (timelineItems : List TimelineItem) (item : TimelineItem) (id : String) :
    List TimelineItem :=
  timelineItems ++ [{ item with id := id }]

/-- The click handler of the add-TTS button (broadcast.js 166-192). `text` is
the trimmed content of the text area; the result is `timelineItems`
afterwards. -/
def addTtsClick (browser : Browser) (rendered : RadioFilterGraph → Nat → ℚ)
    (synth : Synthesizer) (timelineItems : List TimelineItem) (text : String)
    (reverb : String) (id : String) : List TimelineItem :=
  if text = "" then timelineItems
  else
    let audioData := (generateTTS browser rendered synth text reverb false).result
    match audioData with
    | some audioData =>
      let ttsItem : TimelineItem :=
        { id := "", type := "tts", duration := audioData.duration, videoId := "", title := "",
          thumbnail := "", trimStart := 0, trimEnd := 0, fadeIn := 0, fadeOut := 0,
          text := text, reverb := reverb, audioUrl := some audioData.url }
      updateTimeline timelineItems ttsItem id
    | none => timelineItems

/-- The object `currentTrackData` of broadcast.js. -/
structure TrackData where
  videoId : String
  title : String
  thumbnail : String
  duration : ℚ

/-- The numbers read from the track form: the results of `parseInt` on the
two trim fields and of `parseFloat` on the two fade sliders (`none` is
`NaN`). -/
structure TrackForm where
  trimStart : Option ℤ
  trimEnd : Option ℤ
  fadeIn : Option ℚ
  fadeOut : Option ℚ

/-- The value of `x || d` for a number `x`: `d` when `x` is `NaN` or 0. -/
def orElse (x : Option ℚ) (d : ℚ) : ℚ :=
  match x with
  | some v => if v = 0 then d else v
  | none => d

/-- The click handler of the confirm-track button (broadcast.js 81-113): the
new `timelineItems` and the new `currentTrackData`. -/
def confirmTrackClick (currentTrackData : Option TrackData) (form : TrackForm)
    (timelineItems : List TimelineItem) (id : String) :
    List TimelineItem × Option TrackData :=
  match currentTrackData with
  | none => (timelineItems, none)
  | some data =>
    let trimStart := orElse (form.trimStart.map (fun (n : ℤ) => (n : ℚ))) 0
    let trimEnd := orElse (form.trimEnd.map (fun (n : ℤ) => (n : ℚ))) data.duration
    let fadeIn := orElse form.fadeIn 0
    let fadeOut := orElse form.fadeOut 0
    let trackItem : TimelineItem :=
      { id := "", type := "youtube", duration := trimEnd - trimStart, videoId := data.videoId,
        title := data.title, thumbnail := data.thumbnail, trimStart := trimStart,
        trimEnd := trimEnd, fadeIn := fadeIn, fadeOut := fadeOut, text := "", reverb := "",
        audioUrl := none }
    (updateTimeline timelineItems trackItem id, none)

/-! ## timeline.js: edits -/

/-- Transcription of `moveItem` (timeline.js 121-134). `index` is the
`data-index` of a rendered item, a position of `timelineItems`; for any other
index the model leaves the list as it is. -/
def moveItem (timelineItems : List TimelineItem) (index : Nat) (direction : ℤ) :
    List TimelineItem :=
  let newIndex : ℤ := (index : ℤ) + direction
  if newIndex < 0 ∨ newIndex ≥ (timelineItems.length : ℤ) then timelineItems
  else
    match timelineItems[index]?, timelineItems[newIndex.toNat]? with
    | some temp, some other => (timelineItems.set index other).set newIndex.toNat temp
    | _, _ => timelineItems

/-- Transcription of `removeItem` (timeline.js 137-140). -/
def removeItem (timelineItems : List TimelineItem) (index : Nat) : List TimelineItem :=
  timelineItems.eraseIdx index

/-- Transcription of `handleDrop` (timeline.js 155-169): the new
`timelineItems` for the current `draggedIndex` (`none` is `null`) and the
index of the item dropped on. `splice(dropIndex, 0, item)` inserts at
`dropIndex`, or at the end when `dropIndex` is beyond it. -/
def handleDrop (timelineItems : List TimelineItem) (draggedIndex : Option Nat)
    (dropIndex : Nat) : List TimelineItem :=
  match draggedIndex with
  | none => timelineItems
  | some draggedIndex =>
    if draggedIndex ≠ dropIndex then
      match timelineItems[draggedIndex]? with
      | some draggedItem =>
        let removed := timelineItems.eraseIdx draggedIndex
        removed.insertIdx (min dropIndex removed.length) draggedItem
      | none => timelineItems
    else timelineItems

/-! ## broadcast.js: going live -/

/-- The row `handleGoLive` hands to the database (broadcast.js 228-239). -/
structure BroadcastData where
  user_id : String
  name : String
  description : String
  is_live : Bool
  is_looping : Bool
  scheduled_at : Option String
  started_at : Option ℤ
  timeline_data : List TimelineItem
  lat : ℚ
  lng : ℚ

/-- The application state `handleGoLive` works on: `state` of app.js (the id
of the current user, the current broadcast, the picked location),
`timelineItems` of timeline.js and the player. -/
structure AppState where
  currentUser : Option String
  currentBroadcast : Option Broadcast
  locationPick : ℚ × ℚ
  timelineItems : List TimelineItem
  player : PlayerState

/-- One run of `handleGoLive`: the state afterwards, the alerts shown, the
descriptor built (if line 228 was reached), the rows handed to `insert`, and
whether the handler got as far as its first `await`. -/
structure GoLiveRun where
  state : AppState
  alerts : List String
  descriptor : Option BroadcastData
  inserts : List BroadcastData
  awaited : Bool

/-- Transcription of `handleGoLive` (broadcast.js 196-268). `supabase` is the
database client (`none` when not configured) answering an insert with the
stored row or an error message; `stationName` is the trimmed name field;
`dateNow` is the clock at line 235 and `playNow` the clock when the mini
player starts. -/
def handleGoLive (supabase : Option (BroadcastData → Except String Broadcast))
    (st : AppState) (stationName stationDescription : String) (isLooping : Bool)
    (scheduledTime : String) (dateNow playNow : ℤ) : GoLiveRun :=
  match st.currentUser with
  | none =>
    { state := st, alerts := ["Please sign in to create a broadcast"], descriptor := none,
      inserts := [], awaited := false }
  | some userId =>
    if stationName = "" then
      { state := st, alerts := ["Please enter a station name"], descriptor := none,
        inserts := [], awaited := false }
    else
      let timelineData := st.timelineItems
      if timelineData.length = 0 then
        { state := st,
          alerts := ["Please add at least one track or TTS callout to your broadcast"],
          descriptor := none, inserts := [], awaited := false }
      else
        match supabase with
        | none =>
          { state := st,
            alerts := ["Database not configured. Please set up Supabase to create broadcasts."],
            descriptor := none, inserts := [], awaited := false }
        | some insert =>
          let broadcastData : BroadcastData :=
            { user_id := userId, name := stationName, description := stationDescription,
              is_live := scheduledTime = "", is_looping := isLooping,
              scheduled_at := if scheduledTime = "" then none else some scheduledTime,
              started_at := if scheduledTime = "" then some dateNow else none,
              timeline_data := timelineData, lat := st.locationPick.1,
              lng := st.locationPick.2 }
          match insert broadcastData with
          | Except.error message =>
            { state := st, alerts := ["Error creating broadcast: " ++ message],
              descriptor := some broadcastData, inserts := [broadcastData], awaited := true }
          | Except.ok data =>
            { state := { st with currentBroadcast := some data,
                                 player := startBroadcastPlayback st.player data playNow },
              alerts := ["🎉 Your broadcast is now live!"],
              descriptor := some broadcastData, inserts := [broadcastData], awaited := true }

/-! ## Sample data -/


/-- An external clip of the given length, trimmed from 0. -/
def sampleClip (seconds : ℚ) : TimelineItem :=
  { id := "clip", type := "youtube", duration := seconds, videoId := "v", title := "Clip",
    thumbnail := "", trimStart := 0, trimEnd := seconds, fadeIn := 0, fadeOut := 0,
    text := "", reverb := "", audioUrl := none }

/-- A synthesized-speech item of the given length. -/
def sampleSpeech (seconds : ℚ) : TimelineItem :=
  { id := "speech", type := "tts", duration := seconds, videoId := "", title := "",
    thumbnail := "", trimStart := 0, trimEnd := 0, fadeIn := 0, fadeOut := 0,
    text := "hello", reverb := "medium", audioUrl := some "blob:speech" }

/-- A broadcast over the given timeline. -/
def sampleBroadcast (looping : Bool) (startedAt : ℤ) (items : List TimelineItem) : Broadcast :=
  { id := "b1", name := "Station", started_at := startedAt, is_looping := looping,
    timeline_data := some items }

/-- The module state right after `initPlayer`, before the YouTube API is ready. -/
def idleState : PlayerState :=
  { listeningToBroadcast := none, currentBroadcastId := none, playbackInterval := none,
    youtubePlayer := none, ttsAudioElement := none, youtubeReady := false, timers := [],
    nextTimerId := 1 }

/-- A second broadcast with the same start, looping flag and durations as
`sampleBroadcast true 0 [sampleClip 120, sampleSpeech 8]` and other fields
different. -/
def otherBroadcast : Broadcast :=
  { id := "b2", name := "Other", started_at := 0, is_looping := true,
    timeline_data := some [sampleSpeech 120, sampleClip 8] }

/-- A stereo buffer of three frames at 22050 Hz: the left channel holds 1/2,
the right channel -1/4. -/
def sampleBuffer : AudioBuffer :=
  { numberOfChannels := 2, length := 3, sampleRate := 22050,
    getChannelData := fun channel _ => if channel = 0 then 1 / 2 else -1 / 4 }

/-- A browser whose `Math.random()` always returns 1/2. -/
def sampleBrowser : Browser :=
  { random := fun _ => 1 / 2, createObjectURL := fun _ => "blob:1",
    zeroLengthMessage := "NotSupportedError" }

/-- A renderer that puts out silence. -/
def silentRendering : RadioFilterGraph → Nat → ℚ :=
  fun _ _ => 0

/-- A loaded synthesizer that produces no samples. -/
def muteSynthesizer : Synthesizer :=
  { loaded := true, buf8 := fun _ => some [] }

/-- The pending track `loadVideoPreview` sets up (broadcast.js 122-127). -/
def sampleTrack : TrackData :=
  { videoId := "v", title := "YouTube Video v", thumbnail := "t", duration := 180 }

/-- A track form with trim start 50 and trim end 10. -/
def reversedTrimForm : TrackForm :=
  { trimStart := some 50, trimEnd := some 10, fadeIn := none, fadeOut := none }

/-- An application state with a signed-in user and an empty timeline. -/
def emptyEditor : AppState :=
  { currentUser := some "u1", currentBroadcast := none, locationPick := (0, 0),
    timelineItems := [], player := idleState }

/-! ## Auxiliary facts about the scheduler -/

theorem trunc_of_nonneg {q : ℚ} (h : 0 ≤ q) : trunc q = ⌊q⌋ := by
  unfold trunc
  rw [if_neg (not_lt.mpr h)]

theorem trunc_of_neg {q : ℚ} (h : q < 0) : trunc q = ⌈q⌉ := by
  unfold trunc
  rw [if_pos h]

theorem jsRem_of_ne_zero {n d : ℚ} (h : d ≠ 0) :
    jsRem n d = JSNumber.val (n - d * (trunc (n / d) : ℚ)) := by
  unfold jsRem
  rw [if_neg h]

theorem jsRem_zero (n : ℚ) : jsRem n 0 = JSNumber.NaN := by
  unfold jsRem
  rw [if_pos rfl]

/-- On a non-negative dividend and positive divisor `%` is the floored modulo. -/
theorem jsRem_of_nonneg {n d : ℚ} (hn : 0 ≤ n) (hd : 0 < d) :
    jsRem n d = JSNumber.val (n - d * (⌊n / d⌋ : ℚ)) := by
  rw [jsRem_of_ne_zero (ne_of_gt hd), trunc_of_nonneg (div_nonneg hn (le_of_lt hd))]

/-- Whole loops drop out of the remainder. -/
theorem jsRem_loops (k : ℕ) {x T : ℚ} (h0 : 0 ≤ x) (hT : x < T) :
    jsRem ((k : ℚ) * T + x) T = JSNumber.val x := by
  have hpos : 0 < T := lt_of_le_of_lt h0 hT
  have hne : T ≠ 0 := ne_of_gt hpos
  have hk : (0 : ℚ) ≤ (k : ℚ) * T := mul_nonneg (Nat.cast_nonneg k) (le_of_lt hpos)
  rw [jsRem_of_nonneg (add_nonneg hk h0) hpos]
  have hq : ((k : ℚ) * T + x) / T = ((k : ℤ) : ℚ) + x / T := by
    field_simp
  have hfl : ⌊((k : ℚ) * T + x) / T⌋ = (k : ℤ) := by
    rw [hq, Int.floor_int_add]
    have : ⌊x / T⌋ = 0 := by
      rw [Int.floor_eq_iff]
      constructor
      · simpa using div_nonneg h0 (le_of_lt hpos)
      · simpa using (div_lt_one hpos).mpr hT
    rw [this, add_zero]
  rw [hfl]
  congr 1
  push_cast
  ring

theorem totalDuration_foldl (items : List TimelineItem) (c : ℚ) :
    items.foldl (fun sum item => sum + item.duration) c = c + totalDuration items := by
  unfold totalDuration
  induction items generalizing c with
  | nil => simp
  | cons item rest ih =>
    simp only [List.foldl_cons]
    rw [ih (c + item.duration), ih (0 + item.duration)]
    ring

@[simp] theorem totalDuration_nil : totalDuration [] = 0 := rfl

@[simp] theorem totalDuration_cons (item : TimelineItem) (rest : List TimelineItem) :
    totalDuration (item :: rest) = item.duration + totalDuration rest := by
  show List.foldl (fun sum item => sum + item.duration) 0 (item :: rest) = _
  rw [List.foldl_cons, totalDuration_foldl]
  ring

theorem totalDuration_eq_sum (items : List TimelineItem) :
    totalDuration items = (items.map (fun item => item.duration)).sum := by
  induction items with
  | nil => rfl
  | cons item rest ih => simp [ih]

theorem totalDuration_nonneg {items : List TimelineItem}
    (h : ∀ item ∈ items, 0 < item.duration) : 0 ≤ totalDuration items := by
  induction items with
  | nil => simp
  | cons item rest ih =>
    rw [totalDuration_cons]
    have h1 := h item (List.mem_cons_self _ _)
    have h2 := ih (fun it hit => h it (List.mem_cons_of_mem _ hit))
    linarith

@[simp] theorem JSNumber.lt_val (p x : ℚ) : (JSNumber.val p).lt x = true ↔ p < x := by
  simp [JSNumber.lt]

@[simp] theorem JSNumber.lt_nan (x : ℚ) : JSNumber.NaN.lt x = false := rfl

@[simp] theorem JSNumber.ge_val (p x : ℚ) : (JSNumber.val p).ge x = true ↔ x ≤ p := by
  simp [JSNumber.ge]

/-- With a `NaN` position every comparison fails and the loop finds nothing. -/
theorem findCurrentItem_nan (items : List TimelineItem) (c : ℚ) (i : Nat) :
    findCurrentItem JSNumber.NaN items c i = none := by
  induction items generalizing c i with
  | nil => rfl
  | cons item rest ih => simp [findCurrentItem, ih]

/-- What the loop returns: the item at some index `k`, reached only after the
position failed the test against every earlier item. -/
theorem findCurrentItem_some {p : ℚ} {items : List TimelineItem} {c : ℚ} {i idx : Nat}
    {item : TimelineItem} {off : JSNumber}
    (h : findCurrentItem (JSNumber.val p) items c i = some (idx, item, off)) :
    ∃ k, idx = i + k ∧ items[k]? = some item ∧
      off = JSNumber.val (p - (c + totalDuration (items.take k))) ∧
      p < c + totalDuration (items.take k) + item.duration ∧
      ∀ j, j < k → c + totalDuration (items.take (j + 1)) ≤ p := by
  induction items generalizing c i with
  | nil => simp [findCurrentItem] at h
  | cons it rest ih =>
    rw [findCurrentItem] at h
    by_cases hlt : p < c + it.duration
    · rw [if_pos ((JSNumber.lt_val _ _).mpr hlt)] at h
      simp only [Option.some.injEq, Prod.mk.injEq] at h
      obtain ⟨h1, h2, h3⟩ := h
      refine ⟨0, by omega, by simp [h2], ?_, ?_, ?_⟩
      · simp [← h3, JSNumber.sub]
      · simpa [← h2] using hlt
      · intro j hj; omega
    · rw [if_neg (by simpa using hlt)] at h
      obtain ⟨k, hk1, hk2, hk3, hk4, hk5⟩ := ih h
      refine ⟨k + 1, by omega, by simpa using hk2, ?_, ?_, ?_⟩
      · rw [hk3]; simp only [List.take_succ_cons, totalDuration_cons]; congr 1; ring
      · simp only [List.take_succ_cons, totalDuration_cons]; linarith
      · intro j hj
        cases j with
        | zero => simp only [zero_add, List.take_succ_cons, List.take_zero, totalDuration_cons,
            totalDuration_nil]; linarith [not_lt.mp hlt]
        | succ j =>
          have := hk5 j (by omega)
          simp only [List.take_succ_cons, totalDuration_cons] at this ⊢
          linarith

/-- The loop finds an item whenever the position is below the end of a
non-empty timeline. -/
theorem findCurrentItem_isSome {p : ℚ} {items : List TimelineItem} (c : ℚ) (i : Nat)
    (hne : items ≠ []) (h : p < c + totalDuration items) :
    ∃ r, findCurrentItem (JSNumber.val p) items c i = some r := by
  induction items generalizing c i with
  | nil => exact absurd rfl hne
  | cons it rest ih =>
    rw [findCurrentItem]
    by_cases hlt : p < c + it.duration
    · rw [if_pos ((JSNumber.lt_val _ _).mpr hlt)]; exact ⟨_, rfl⟩
    · rw [if_neg (by simpa using hlt)]
      rw [totalDuration_cons] at h
      cases rest with
      | nil => simp at h; exact absurd h hlt
      | cons it2 rest2 =>
        exact ih (c + it.duration) (i + 1) (by simp) (by linarith)

/-- At the start of item `k` the loop selects item `k` with offset 0. -/
theorem findCurrentItem_boundary {items : List TimelineItem}
    (hpos : ∀ item ∈ items, 0 < item.duration) (c : ℚ) (i k : Nat) (item : TimelineItem)
    (hk : items[k]? = some item) :
    findCurrentItem (JSNumber.val (c + totalDuration (items.take k))) items c i =
      some (i + k, item, JSNumber.val 0) := by
  induction items generalizing c i k with
  | nil => simp at hk
  | cons it rest ih =>
    have hit := hpos it (List.mem_cons_self _ _)
    have hrest : ∀ x ∈ rest, 0 < x.duration := fun x hx => hpos x (List.mem_cons_of_mem _ hx)
    rw [findCurrentItem]
    cases k with
    | zero =>
      simp only [List.getElem?_cons_zero, Option.some.injEq] at hk
      subst hk
      simp [hit, JSNumber.sub]
    | succ k =>
      simp only [List.getElem?_cons_succ] at hk
      have hnn : 0 ≤ totalDuration (rest.take k) :=
        totalDuration_nonneg (fun x hx => hrest x (List.mem_of_mem_take hx))
      have hnlt : ¬ (c + (it.duration + totalDuration (rest.take k)) < c + it.duration) := by
        linarith
      simp only [List.take_succ_cons, totalDuration_cons]
      rw [if_neg (by simpa using hnlt)]
      have := ih hrest (c + it.duration) (i + 1) k hk
      rw [show c + (it.duration + totalDuration (List.take k rest)) =
        c + it.duration + totalDuration (List.take k rest) by ring]
      rw [this]
      congr 2
      omega

theorem totalDuration_take_succ {items : List TimelineItem} {j : Nat} {it : TimelineItem}
    (h : items[j]? = some it) :
    totalDuration (items.take (j + 1)) = totalDuration (items.take j) + it.duration := by
  rw [List.take_succ, h, totalDuration_eq_sum, totalDuration_eq_sum]
  simp

/-- The body of `startSyncedPlayback` past the empty-timeline guard. -/
theorem startSyncedPlayback_eq (s : PlayerState) (b : Broadcast) (now : ℤ)
    (hne : timelineOf b ≠ []) :
    startSyncedPlayback s b now =
      match timelinePosition b.is_looping (elapsedSeconds b now)
          (totalDuration (timelineOf b)) with
      | none => (Outcome.ended, s)
      | some position =>
        match findCurrentItem position (timelineOf b) 0 0 with
        | none => (Outcome.notFound, s)
        | some (index, currentItem, itemStartTime) =>
          (Outcome.play index currentItem itemStartTime,
            playItem s currentItem itemStartTime b) := by
  unfold startSyncedPlayback timelineOf
  unfold timelineOf at hne
  split
  · rename_i h; simp [h] at hne
  · rename_i h; simp [h] at hne
  · rename_i first rest h; simp [h]

theorem startSyncedPlayback_nil (s : PlayerState) (b : Broadcast) (now : ℤ)
    (h : timelineOf b = []) :
    startSyncedPlayback s b now = (Outcome.noTimelineData, s) := by
  unfold startSyncedPlayback
  unfold timelineOf at h
  split
  · rfl
  · rfl
  · rename_i first rest h2; simp [h2] at h

/-- The index and offset found by the loop depend on the durations only. -/
theorem findCurrentItem_durations (position : JSNumber) (xs ys : List TimelineItem)
    (c : ℚ) (i : Nat)
    (h : xs.map (fun item => item.duration) = ys.map (fun item => item.duration)) :
    (findCurrentItem position xs c i).map (fun r => (r.1, r.2.2)) =
      (findCurrentItem position ys c i).map (fun r => (r.1, r.2.2)) := by
  induction xs generalizing ys c i with
  | nil =>
    cases ys with
    | nil => rfl
    | cons y ys => simp at h
  | cons x xs ih =>
    cases ys with
    | nil => simp at h
    | cons y ys =>
      simp only [List.map_cons, List.cons.injEq] at h
      obtain ⟨hd, htl⟩ := h
      rw [findCurrentItem, findCurrentItem, hd]
      by_cases hlt : position.lt (c + y.duration) = true
      · simp [hlt]
      · simp only [hlt, if_false]
        exact ih ys (c + y.duration) (i + 1) htl

/-! ## The scheduler claims -/

/-- C1 (looping wraparound). For a looping broadcast with total duration `T`,
every number of whole loops `k` and every `x` with `0 ≤ x < T`, the call made
at `elapsed = k * T + x` returns the same outcome (same item, same in-item
offset) and leaves the same state as the call made at `elapsed = x`. -/
theorem looping_wraparound (s : PlayerState) (b : Broadcast) (now1 now2 : ℤ) (k : ℕ) (x : ℚ)
    (hloop : b.is_looping = true)
    (h0 : 0 ≤ x) (hT : x < totalDuration (timelineOf b))
    (h1 : elapsedSeconds b now1 = (k : ℚ) * totalDuration (timelineOf b) + x)
    (h2 : elapsedSeconds b now2 = x) :
    startSyncedPlayback s b now1 = startSyncedPlayback s b now2 := by
  by_cases hne : timelineOf b = []
  · rw [startSyncedPlayback_nil s b now1 hne, startSyncedPlayback_nil s b now2 hne]
  · rw [startSyncedPlayback_eq s b now1 hne, startSyncedPlayback_eq s b now2 hne, h1, h2]
    have e1 := jsRem_loops k h0 hT
    have e2 := jsRem_loops 0 h0 hT
    simp only [Nat.cast_zero, zero_mul, zero_add] at e2
    simp only [timelinePosition, hloop, if_true, e1, e2]

theorem looping_wraparound_witness :
    (sampleBroadcast true 0 [sampleClip 10, sampleSpeech 5]).is_looping = true ∧
    startSyncedPlayback idleState (sampleBroadcast true 0 [sampleClip 10, sampleSpeech 5]) 37000 =
      startSyncedPlayback idleState (sampleBroadcast true 0 [sampleClip 10, sampleSpeech 5])
        7000 :=
  ⟨rfl, looping_wraparound idleState (sampleBroadcast true 0 [sampleClip 10, sampleSpeech 5])
    37000 7000 2 7 rfl (by norm_num)
    (by norm_num [timelineOf, sampleBroadcast, sampleClip, sampleSpeech])
    (by norm_num [timelineOf, sampleBroadcast, sampleClip, sampleSpeech, elapsedSeconds])
    (by norm_num [sampleBroadcast, elapsedSeconds])⟩

/-- C2 (resolved range). Whenever `startSyncedPlayback` calls `playItem` for a
position `p ≥ 0`, the item is the one at the recorded index, its range
`[before, before + duration)` contains `p` (where `before` is the sum of the
durations of the items ahead of it), no earlier item has a range containing
`p`, and the offset passed is `p - before`, which lies in `[0, duration)`. -/
theorem resolved_range (s : PlayerState) (b : Broadcast) (now : ℤ) (idx : Nat)
    (item : TimelineItem) (off : JSNumber) (p : ℚ)
    (hplay : (startSyncedPlayback s b now).1 = Outcome.play idx item off)
    (hp : timelinePosition b.is_looping (elapsedSeconds b now) (totalDuration (timelineOf b)) =
      some (JSNumber.val p))
    (h0 : 0 ≤ p) :
    (timelineOf b)[idx]? = some item ∧
    totalDuration ((timelineOf b).take idx) ≤ p ∧
    p < totalDuration ((timelineOf b).take idx) + item.duration ∧
    off = JSNumber.val (p - totalDuration ((timelineOf b).take idx)) ∧
    0 ≤ p - totalDuration ((timelineOf b).take idx) ∧
    p - totalDuration ((timelineOf b).take idx) < item.duration ∧
    ∀ j it, j < idx → (timelineOf b)[j]? = some it →
      ¬ (totalDuration ((timelineOf b).take j) ≤ p ∧
          p < totalDuration ((timelineOf b).take j) + it.duration) := by
  by_cases hne : timelineOf b = []
  · rw [startSyncedPlayback_nil s b now hne] at hplay
    cases hplay
  · rw [startSyncedPlayback_eq s b now hne, hp] at hplay
    simp only at hplay
    cases hfind : findCurrentItem (JSNumber.val p) (timelineOf b) 0 0 with
    | none => rw [hfind] at hplay; cases hplay
    | some r =>
      obtain ⟨i, it, o⟩ := r
      rw [hfind] at hplay
      simp only [Outcome.play.injEq] at hplay
      obtain ⟨rfl, rfl, rfl⟩ := hplay
      obtain ⟨k, hk1, hk2, hk3, hk4, hk5⟩ := findCurrentItem_some hfind
      simp only [zero_add] at hk1 hk3 hk4 hk5
      subst hk1
      have hbefore : totalDuration ((timelineOf b).take i) ≤ p := by
        cases i with
        | zero => simpa using h0
        | succ i => exact hk5 i (Nat.lt_succ_self i)
      refine ⟨hk2, hbefore, hk4, hk3, by linarith, by linarith, ?_⟩
      intro j jt hj hjt hcontra
      have h5 := hk5 j hj
      rw [totalDuration_take_succ hjt] at h5
      linarith [hcontra.2]

theorem resolved_range_witness :
    (timelineOf (sampleBroadcast false 0 [sampleClip 10, sampleSpeech 5]))[1]? =
      some (sampleSpeech 5) ∧
    totalDuration ((timelineOf (sampleBroadcast false 0 [sampleClip 10, sampleSpeech 5])).take 1)
      ≤ 12 ∧
    (12 : ℚ) < totalDuration
      ((timelineOf (sampleBroadcast false 0 [sampleClip 10, sampleSpeech 5])).take 1) +
      (sampleSpeech 5).duration ∧
    JSNumber.val 2 = JSNumber.val (12 - totalDuration
      ((timelineOf (sampleBroadcast false 0 [sampleClip 10, sampleSpeech 5])).take 1)) := by
  have h := resolved_range idleState (sampleBroadcast false 0 [sampleClip 10, sampleSpeech 5])
    12000 1 (sampleSpeech 5) (JSNumber.val 2) 12
    (by
      norm_num [startSyncedPlayback, sampleBroadcast, sampleClip, sampleSpeech, elapsedSeconds,
        timelinePosition, findCurrentItem, JSNumber.sub])
    (by
      norm_num [sampleBroadcast, sampleClip, sampleSpeech, elapsedSeconds, timelinePosition,
        timelineOf])
    (by norm_num)
  exact ⟨h.1, h.2.1, h.2.2.1, h.2.2.2.1⟩

/-- C3 (boundary tie-break). In a timeline of positive-duration items, when
the position is exactly the sum of the first `k` durations (`k` below the
number of items), the item at index `k` is played at offset 0, not item
`k - 1` at an offset equal to its duration. -/
theorem boundary_tie_break (s : PlayerState) (b : Broadcast) (now : ℤ) (k : Nat)
    (item : TimelineItem)
    (hpos : ∀ it ∈ timelineOf b, 0 < it.duration)
    (hk : (timelineOf b)[k]? = some item)
    (hp : timelinePosition b.is_looping (elapsedSeconds b now) (totalDuration (timelineOf b)) =
      some (JSNumber.val (totalDuration ((timelineOf b).take k)))) :
    (startSyncedPlayback s b now).1 = Outcome.play k item (JSNumber.val 0) := by
  have hne : timelineOf b ≠ [] := by
    intro h
    rw [h] at hk
    simp at hk
  rw [startSyncedPlayback_eq s b now hne, hp]
  have h := findCurrentItem_boundary hpos 0 0 k item hk
  simp only [zero_add] at h
  simp only [h]

theorem boundary_tie_break_witness :
    (startSyncedPlayback idleState (sampleBroadcast false 0 [sampleClip 10, sampleSpeech 5])
      10000).1 = Outcome.play 1 (sampleSpeech 5) (JSNumber.val 0) :=
  boundary_tie_break idleState (sampleBroadcast false 0 [sampleClip 10, sampleSpeech 5]) 10000 1
    (sampleSpeech 5)
    (by
      intro it hit
      simp only [timelineOf, sampleBroadcast, List.mem_cons, List.mem_singleton,
        List.not_mem_nil, or_false] at hit
      rcases hit with rfl | rfl <;> norm_num [sampleClip, sampleSpeech])
    (by simp [timelineOf, sampleBroadcast])
    (by
      norm_num [sampleBroadcast, sampleClip, sampleSpeech, elapsedSeconds, timelinePosition,
        timelineOf])

/-- C4 (non-looping termination). For a non-looping broadcast with a non-empty
timeline, `startSyncedPlayback` returns through the 'Broadcast has ended'
branch, with the player state untouched and no item played, exactly when
`elapsed ≥ totalDuration`. -/
theorem non_looping_termination (s : PlayerState) (b : Broadcast) (now : ℤ)
    (hloop : b.is_looping = false) (hne : timelineOf b ≠ []) :
    (startSyncedPlayback s b now = (Outcome.ended, s) ↔
      totalDuration (timelineOf b) ≤ elapsedSeconds b now) ∧
    ((startSyncedPlayback s b now).1 = Outcome.ended ↔
      totalDuration (timelineOf b) ≤ elapsedSeconds b now) := by
  rw [startSyncedPlayback_eq s b now hne]
  by_cases hge : totalDuration (timelineOf b) ≤ elapsedSeconds b now
  · have : timelinePosition b.is_looping (elapsedSeconds b now) (totalDuration (timelineOf b)) =
        none := by
      simp [timelinePosition, hloop, hge]
    simp [this, hge]
  · have : timelinePosition b.is_looping (elapsedSeconds b now) (totalDuration (timelineOf b)) =
        some (JSNumber.val (elapsedSeconds b now)) := by
      simp [timelinePosition, hloop, hge]
    rw [this]
    simp only [hge, iff_false]
    cases findCurrentItem (JSNumber.val (elapsedSeconds b now)) (timelineOf b) 0 0 with
    | none => simp
    | some r => simp

theorem non_looping_termination_witness :
    startSyncedPlayback idleState (sampleBroadcast false 0 [sampleClip 10, sampleSpeech 5])
      15000 = (Outcome.ended, idleState) :=
  ((non_looping_termination idleState (sampleBroadcast false 0 [sampleClip 10, sampleSpeech 5])
    15000 rfl (by simp [timelineOf, sampleBroadcast])).1).mpr
    (by norm_num [timelineOf, sampleBroadcast, sampleClip, sampleSpeech, elapsedSeconds])

/-- For a negative dividend and positive divisor `%` is the ceiling remainder,
which lies in `(-d, 0]`. -/
theorem jsRem_of_neg {n d : ℚ} (hn : n < 0) (hd : 0 < d) :
    jsRem n d = JSNumber.val (n - d * (⌈n / d⌉ : ℚ)) ∧
      -d < n - d * (⌈n / d⌉ : ℚ) ∧ n - d * (⌈n / d⌉ : ℚ) ≤ 0 := by
  have hq : n / d < 0 := div_neg_of_neg_of_pos hn hd
  refine ⟨by rw [jsRem_of_ne_zero (ne_of_gt hd), trunc_of_neg hq], ?_, ?_⟩
  · have h1 : (⌈n / d⌉ : ℚ) < n / d + 1 := Int.ceil_lt_add_one (n / d)
    have h2 : d * (⌈n / d⌉ : ℚ) < d * (n / d + 1) := mul_lt_mul_of_pos_left h1 hd
    have h3 : d * (n / d + 1) = n + d := by field_simp
    linarith
  · have h1 : n / d ≤ (⌈n / d⌉ : ℚ) := Int.le_ceil (n / d)
    have h2 : d * (n / d) ≤ d * (⌈n / d⌉ : ℚ) := mul_le_mul_of_nonneg_left h1 (le_of_lt hd)
    have h3 : d * (n / d) = n := by field_simp
    linarith

/-- The floored remainder lies in `[0, d)`. -/
theorem floor_rem_bounds (n : ℚ) {d : ℚ} (hd : 0 < d) :
    0 ≤ n - d * (⌊n / d⌋ : ℚ) ∧ n - d * (⌊n / d⌋ : ℚ) < d := by
  constructor
  · have h1 : (⌊n / d⌋ : ℚ) ≤ n / d := Int.floor_le (n / d)
    have h2 : d * (⌊n / d⌋ : ℚ) ≤ d * (n / d) := mul_le_mul_of_nonneg_left h1 (le_of_lt hd)
    have h3 : d * (n / d) = n := by field_simp
    linarith
  · have h1 : n / d < (⌊n / d⌋ : ℚ) + 1 := Int.lt_floor_add_one (n / d)
    have h2 : d * (n / d) < d * ((⌊n / d⌋ : ℚ) + 1) := mul_lt_mul_of_pos_left h1 hd
    have h3 : d * (n / d) = n := by field_simp
    linarith

/-- C5, as the code has it. `startSyncedPlayback` has no 'not yet started'
state: when `now` is earlier than `started_at` and every item has a positive
duration, it plays the first item and passes the position itself as the
offset. The position is `elapsed` (negative) when the broadcast does not loop,
and the truncating remainder of `elapsed` by the total duration `T`, a value
in `(-T, 0]`, when it loops. -/
theorem before_start_plays_first (s : PlayerState) (b : Broadcast) (now : ℤ)
    (first : TimelineItem) (rest : List TimelineItem)
    (htl : b.timeline_data = some (first :: rest))
    (hpos : ∀ it ∈ first :: rest, 0 < it.duration)
    (hneg : elapsedSeconds b now < 0) :
    ∃ p : ℚ, (startSyncedPlayback s b now).1 = Outcome.play 0 first (JSNumber.val p) ∧
      p ≤ 0 ∧
      (b.is_looping = false → p = elapsedSeconds b now) ∧
      (b.is_looping = true →
        p = elapsedSeconds b now - totalDuration (first :: rest) *
          (⌈elapsedSeconds b now / totalDuration (first :: rest)⌉ : ℚ) ∧
        -totalDuration (first :: rest) < p) := by
  have htl2 : timelineOf b = first :: rest := by simp [timelineOf, htl]
  have hfirst : 0 < first.duration := hpos first (List.mem_cons_self _ _)
  have hrest : 0 ≤ totalDuration rest :=
    totalDuration_nonneg (fun it hit => hpos it (List.mem_cons_of_mem _ hit))
  have hT : 0 < totalDuration (first :: rest) := by
    rw [totalDuration_cons]; linarith
  have hfind : ∀ p : ℚ, p ≤ 0 →
      findCurrentItem (JSNumber.val p) (first :: rest) 0 0 = some (0, first, JSNumber.val p) := by
    intro p hp
    rw [findCurrentItem, if_pos (by rw [JSNumber.lt_val]; linarith)]
    simp [JSNumber.sub]
  rw [startSyncedPlayback_eq s b now (by rw [htl2]; simp), htl2]
  cases hloop : b.is_looping with
  | false =>
    refine ⟨elapsedSeconds b now, ?_, le_of_lt hneg, fun _ => rfl, fun h => by cases h⟩
    have : timelinePosition false (elapsedSeconds b now) (totalDuration (first :: rest)) =
        some (JSNumber.val (elapsedSeconds b now)) := by
      have hnot : ¬ totalDuration (first :: rest) ≤ elapsedSeconds b now := by linarith
      simp only [timelinePosition, JSNumber.ge_val, hnot]
      simp
    rw [this]
    simp only [hfind _ (le_of_lt hneg)]
  | true =>
    obtain ⟨e1, e2, e3⟩ := jsRem_of_neg hneg hT
    refine ⟨elapsedSeconds b now - totalDuration (first :: rest) *
      (⌈elapsedSeconds b now / totalDuration (first :: rest)⌉ : ℚ), ?_, e3,
      fun h => Bool.noConfusion h, fun _ => ⟨rfl, e2⟩⟩
    have : timelinePosition true (elapsedSeconds b now) (totalDuration (first :: rest)) =
        some (JSNumber.val (elapsedSeconds b now - totalDuration (first :: rest) *
          (⌈elapsedSeconds b now / totalDuration (first :: rest)⌉ : ℚ))) := by
      simp only [timelinePosition, if_true, e1]
    rw [this]
    simp only [hfind _ e3]

/-- C5, the claim as written fails: five seconds before the start of a
non-looping broadcast the first item is played with offset -5. -/
theorem before_start_counterexample :
    elapsedSeconds (sampleBroadcast false 5000 [sampleClip 10, sampleSpeech 5]) 0 < 0 ∧
    (startSyncedPlayback idleState (sampleBroadcast false 5000 [sampleClip 10, sampleSpeech 5])
      0).1 = Outcome.play 0 (sampleClip 10) (JSNumber.val (-5)) := by
  constructor
  · norm_num [sampleBroadcast, elapsedSeconds]
  · norm_num [startSyncedPlayback, sampleBroadcast, sampleClip, sampleSpeech, elapsedSeconds,
      timelinePosition, findCurrentItem, JSNumber.sub]

theorem before_start_plays_first_witness :
    ∃ p : ℚ, (startSyncedPlayback idleState
        (sampleBroadcast true 5000 [sampleClip 10, sampleSpeech 5]) 0).1 =
        Outcome.play 0 (sampleClip 10) (JSNumber.val p) ∧ p ≤ 0 := by
  obtain ⟨p, h1, h2, _⟩ := before_start_plays_first idleState
    (sampleBroadcast true 5000 [sampleClip 10, sampleSpeech 5]) 0 (sampleClip 10)
    [sampleSpeech 5] rfl
    (by
      intro it hit
      simp only [List.mem_cons, List.mem_singleton, List.not_mem_nil, or_false] at hit
      rcases hit with rfl | rfl <;> norm_num [sampleClip, sampleSpeech])
    (by norm_num [sampleBroadcast, elapsedSeconds])
  exact ⟨p, h1, h2⟩

/-- C6, as the code has it. For a looping broadcast with total duration
`T > 0` the position is the remainder of the truncating division of `elapsed`
by `T`: for `elapsed ≥ 0` this is the floored modulo and lies in `[0, T)`; for
`elapsed < 0` it is `elapsed - T * ⌈elapsed / T⌉` and lies in `(-T, 0]`. -/
theorem looping_position (elapsed T : ℚ) (hT : 0 < T) :
    ∃ p : ℚ, timelinePosition true elapsed T = some (JSNumber.val p) ∧
      (0 ≤ elapsed → p = elapsed - T * (⌊elapsed / T⌋ : ℚ) ∧ 0 ≤ p ∧ p < T) ∧
      (elapsed < 0 → p = elapsed - T * (⌈elapsed / T⌉ : ℚ) ∧ -T < p ∧ p ≤ 0) := by
  by_cases h : 0 ≤ elapsed
  · refine ⟨elapsed - T * (⌊elapsed / T⌋ : ℚ), ?_, ?_, ?_⟩
    · simp only [timelinePosition, if_true, jsRem_of_nonneg h hT]
    · intro _
      exact ⟨rfl, floor_rem_bounds elapsed hT⟩
    · intro hneg
      exact absurd h (not_le.mpr hneg)
  · have hneg : elapsed < 0 := not_le.mp h
    obtain ⟨e1, e2, e3⟩ := jsRem_of_neg hneg hT
    refine ⟨elapsed - T * (⌈elapsed / T⌉ : ℚ), ?_, ?_, ?_⟩
    · simp only [timelinePosition, if_true, e1]
    · intro h0
      exact absurd h0 h
    · intro _
      exact ⟨rfl, e2, e3⟩

theorem looping_position_witness :
    ∃ p : ℚ, timelinePosition true 125 128 = some (JSNumber.val p) ∧ 0 ≤ p ∧ p < 128 :=
  let ⟨p, h1, h2, _⟩ := looping_position 125 128 (by norm_num)
  ⟨p, h1, (h2 (by norm_num)).2⟩

/-- C6, the claim as written fails: five seconds before the start of a looping
broadcast of total duration 15 the position is -5, which is negative and is
not the floored modulo 10. -/
theorem true_modulo_counterexample :
    totalDuration (timelineOf (sampleBroadcast true 5000 [sampleClip 10, sampleSpeech 5])) = 15 ∧
    timelinePosition (sampleBroadcast true 5000 [sampleClip 10, sampleSpeech 5]).is_looping
      (elapsedSeconds (sampleBroadcast true 5000 [sampleClip 10, sampleSpeech 5]) 0)
      (totalDuration (timelineOf (sampleBroadcast true 5000 [sampleClip 10, sampleSpeech 5]))) =
      some (JSNumber.val (-5)) ∧
    ((-5 : ℚ) - 15 * (⌊(-5 : ℚ) / 15⌋ : ℚ) = 10) := by
  have hf : ⌊(-1 : ℚ) / 3⌋ = -1 := by
    rw [Int.floor_eq_iff]; norm_num
  have hq : (-5 : ℚ) / 15 = -1 / 3 := by norm_num
  refine ⟨by norm_num [timelineOf, sampleBroadcast, sampleClip, sampleSpeech], ?_, ?_⟩
  · have e : elapsedSeconds (sampleBroadcast true 5000 [sampleClip 10, sampleSpeech 5]) 0 = -5 := by
      norm_num [sampleBroadcast, elapsedSeconds]
    have t : totalDuration (timelineOf (sampleBroadcast true 5000
        [sampleClip 10, sampleSpeech 5])) = 15 := by
      norm_num [timelineOf, sampleBroadcast, sampleClip, sampleSpeech]
    rw [e, t]
    have hneg : (-5 : ℚ) / 15 < 0 := by norm_num
    have ht : trunc ((-5 : ℚ) / 15) = 0 := by
      rw [trunc_of_neg hneg, Int.ceil_eq_iff]; norm_num
    simp only [sampleBroadcast, timelinePosition, if_true,
      jsRem_of_ne_zero (by norm_num : (15 : ℚ) ≠ 0), ht]
    norm_num
  · rw [hq, hf]; norm_num

/-- C7 (concrete scenario). For the looping timeline [external clip of 120 s,
speech item of 8 s] started at any `T0`, the call made 125 s later computes
total duration 128 and position 125 and plays the speech item (index 1) at
offset 5, whatever the player state. -/
theorem concrete_scenario (s : PlayerState) (T0 : ℤ) :
    totalDuration (timelineOf (sampleBroadcast true T0 [sampleClip 120, sampleSpeech 8])) = 128 ∧
    elapsedSeconds (sampleBroadcast true T0 [sampleClip 120, sampleSpeech 8]) (T0 + 125000) =
      125 ∧
    timelinePosition (sampleBroadcast true T0 [sampleClip 120, sampleSpeech 8]).is_looping
      (elapsedSeconds (sampleBroadcast true T0 [sampleClip 120, sampleSpeech 8]) (T0 + 125000))
      (totalDuration (timelineOf (sampleBroadcast true T0 [sampleClip 120, sampleSpeech 8]))) =
      some (JSNumber.val 125) ∧
    (startSyncedPlayback s (sampleBroadcast true T0 [sampleClip 120, sampleSpeech 8])
      (T0 + 125000)).1 = Outcome.play 1 (sampleSpeech 8) (JSNumber.val 5) := by
  have t : totalDuration (timelineOf (sampleBroadcast true T0
      [sampleClip 120, sampleSpeech 8])) = 128 := by
    norm_num [timelineOf, sampleBroadcast, sampleClip, sampleSpeech]
  have e : elapsedSeconds (sampleBroadcast true T0 [sampleClip 120, sampleSpeech 8])
      (T0 + 125000) = 125 := by
    norm_num [sampleBroadcast, elapsedSeconds]
  have r : jsRem 125 128 = JSNumber.val 125 := by
    have := jsRem_loops 0 (by norm_num : (0 : ℚ) ≤ 125) (by norm_num : (125 : ℚ) < 128)
    simpa using this
  have hpos : timelinePosition (sampleBroadcast true T0
      [sampleClip 120, sampleSpeech 8]).is_looping
      (elapsedSeconds (sampleBroadcast true T0 [sampleClip 120, sampleSpeech 8]) (T0 + 125000))
      (totalDuration (timelineOf (sampleBroadcast true T0 [sampleClip 120, sampleSpeech 8]))) =
      some (JSNumber.val 125) := by
    rw [e, t]
    simp only [sampleBroadcast, timelinePosition, if_true, r]
  refine ⟨t, e, hpos, ?_⟩
  rw [startSyncedPlayback_eq _ _ _ (by simp [timelineOf, sampleBroadcast]), hpos]
  norm_num [timelineOf, sampleBroadcast, sampleClip, sampleSpeech, findCurrentItem, JSNumber.sub]

/-- C8 (determinism, independence). The index and the offset that
`startSyncedPlayback` resolves are a function of `started_at`, `is_looping`,
the sequence of item durations and the current time: two calls that agree on
these resolve the same index and offset (or both resolve nothing), whatever
the other fields of the two broadcasts and of their items are and whatever
the two player states are. -/
theorem resolution_independent (s1 s2 : PlayerState) (b1 b2 : Broadcast) (now : ℤ)
    (hstart : b1.started_at = b2.started_at)
    (hloop : b1.is_looping = b2.is_looping)
    (hdur : (timelineOf b1).map (fun item => item.duration) =
      (timelineOf b2).map (fun item => item.duration)) :
    (startSyncedPlayback s1 b1 now).1.resolved = (startSyncedPlayback s2 b2 now).1.resolved := by
  have he : elapsedSeconds b1 now = elapsedSeconds b2 now := by
    simp [elapsedSeconds, hstart]
  have ht : totalDuration (timelineOf b1) = totalDuration (timelineOf b2) := by
    rw [totalDuration_eq_sum, totalDuration_eq_sum, hdur]
  by_cases hne : timelineOf b1 = []
  · have hne2 : timelineOf b2 = [] := by
      rw [hne] at hdur
      simpa using hdur.symm
    rw [startSyncedPlayback_nil s1 b1 now hne, startSyncedPlayback_nil s2 b2 now hne2]
  · have hne2 : timelineOf b2 ≠ [] := by
      intro h
      rw [h] at hdur
      exact hne (by simpa using hdur)
    rw [startSyncedPlayback_eq s1 b1 now hne, startSyncedPlayback_eq s2 b2 now hne2, he, ht,
      hloop]
    cases timelinePosition b2.is_looping (elapsedSeconds b2 now)
        (totalDuration (timelineOf b2)) with
    | none => rfl
    | some position =>
      have h := findCurrentItem_durations position (timelineOf b1) (timelineOf b2) 0 0 hdur
      cases h1 : findCurrentItem position (timelineOf b1) 0 0 with
      | none =>
        cases h2 : findCurrentItem position (timelineOf b2) 0 0 with
        | none => simp only [h1, h2, Outcome.resolved]
        | some r2 => rw [h1, h2] at h; simp at h
      | some r1 =>
        cases h2 : findCurrentItem position (timelineOf b2) 0 0 with
        | none => rw [h1, h2] at h; simp at h
        | some r2 =>
          rw [h1, h2] at h
          simp only [Option.map_some', Option.some.injEq, Prod.mk.injEq] at h
          obtain ⟨i1, it1, o1⟩ := r1
          obtain ⟨i2, it2, o2⟩ := r2
          simp only at h
          simp only [h1, h2, Outcome.resolved, Option.some.injEq, Prod.mk.injEq]
          exact h

theorem resolution_independent_witness :
    (startSyncedPlayback idleState (sampleBroadcast true 0 [sampleClip 120, sampleSpeech 8])
      125000).1.resolved =
    (startSyncedPlayback { idleState with youtubeReady := true, playbackInterval := some 3 }
      otherBroadcast 125000).1.resolved :=
  resolution_independent idleState { idleState with youtubeReady := true, playbackInterval := some 3 }
    (sampleBroadcast true 0 [sampleClip 120, sampleSpeech 8]) otherBroadcast 125000 rfl rfl
    (by simp [timelineOf, sampleBroadcast, otherBroadcast, sampleClip, sampleSpeech])

/-- C9 (no current item). For every broadcast whose timeline has zero total
duration (missing, empty, or all items of duration 0) and every
`elapsed ≥ 0`, looping or not, `startSyncedPlayback` returns through one of
its three `return` branches that precede `playItem`: the player state is
unchanged and no item is played. -/
theorem zero_duration_plays_nothing (s : PlayerState) (b : Broadcast) (now : ℤ)
    (hzero : totalDuration (timelineOf b) = 0)
    (h0 : 0 ≤ elapsedSeconds b now) :
    (startSyncedPlayback s b now).2 = s ∧
    ((startSyncedPlayback s b now).1 = Outcome.noTimelineData ∨
      (startSyncedPlayback s b now).1 = Outcome.ended ∨
      (startSyncedPlayback s b now).1 = Outcome.notFound) := by
  by_cases hne : timelineOf b = []
  · rw [startSyncedPlayback_nil s b now hne]
    exact ⟨rfl, Or.inl rfl⟩
  · rw [startSyncedPlayback_eq s b now hne, hzero]
    cases hloop : b.is_looping with
    | false =>
      have : timelinePosition false (elapsedSeconds b now) 0 = none := by
        simp [timelinePosition, h0]
      rw [this]
      exact ⟨rfl, Or.inr (Or.inl rfl)⟩
    | true =>
      have : timelinePosition true (elapsedSeconds b now) 0 = some JSNumber.NaN := by
        simp [timelinePosition, jsRem_zero]
      rw [this]
      simp only [findCurrentItem_nan]
      exact ⟨trivial, Or.inr (Or.inr trivial)⟩

theorem zero_duration_plays_nothing_witness :
    (startSyncedPlayback idleState (sampleBroadcast true 0 [sampleClip 0, sampleSpeech 0])
      5000).2 = idleState ∧
    (startSyncedPlayback idleState (sampleBroadcast true 0 [sampleClip 0, sampleSpeech 0])
      5000).1 = Outcome.notFound := by
  have h := zero_duration_plays_nothing idleState
    (sampleBroadcast true 0 [sampleClip 0, sampleSpeech 0]) 5000
    (by norm_num [timelineOf, sampleBroadcast, sampleClip, sampleSpeech])
    (by norm_num [sampleBroadcast, elapsedSeconds])
  refine ⟨h.1, ?_⟩
  rw [startSyncedPlayback_eq _ _ _ (by simp [timelineOf, sampleBroadcast])]
  have t : totalDuration (timelineOf (sampleBroadcast true 0 [sampleClip 0, sampleSpeech 0])) =
      0 := by
    norm_num [timelineOf, sampleBroadcast, sampleClip, sampleSpeech]
  rw [t]
  simp [timelinePosition, sampleBroadcast, jsRem_zero, findCurrentItem_nan]

/-! ## Auxiliary facts about the byte array -/

theorem byteAt_set (v : List Nat) (i j a : Nat) :
    byteAt (v.set i a) j = if i = j ∧ i < v.length then a else byteAt v j := by
  unfold byteAt
  rw [List.getD_eq_getElem?_getD, List.getD_eq_getElem?_getD, List.getElem?_set]
  by_cases h1 : i = j
  · subst h1
    by_cases h2 : i < v.length
    · simp [h2]
    · have : v[i]? = none := List.getElem?_eq_none (by omega)
      simp [h2, this]
  · simp [h1]

theorem byteAt_set_self (v : List Nat) (i a : Nat) (h : i < v.length) :
    byteAt (v.set i a) i = a := by
  rw [byteAt_set, if_pos ⟨rfl, h⟩]

theorem byteAt_set_ne (v : List Nat) (i j a : Nat) (h : i ≠ j) :
    byteAt (v.set i a) j = byteAt v j := by
  rw [byteAt_set, if_neg (fun hc => h hc.1)]

theorem length_setUint8 (v : List Nat) (off x : Nat) : (setUint8 v off x).length = v.length := by
  simp [setUint8]

theorem length_setUint16 (v : List Nat) (off x : Nat) :
    (setUint16 v off x).length = v.length := by
  simp [setUint16]

theorem length_setUint32 (v : List Nat) (off x : Nat) :
    (setUint32 v off x).length = v.length := by
  simp [setUint32]

theorem length_setInt16 (v : List Nat) (off : Nat) (q : ℚ) :
    (setInt16 v off q).length = v.length := by
  simp [setInt16]

theorem length_writeChars (cs : List Char) (v : List Nat) (off : Nat) :
    (writeChars v off cs).length = v.length := by
  induction cs generalizing v off with
  | nil => rfl
  | cons c cs ih => rw [writeChars, ih, length_setUint8]

theorem length_writeString (v : List Nat) (off : Nat) (str : String) :
    (writeString v off str).length = v.length :=
  length_writeChars _ _ _

theorem byteAt_setUint8_outside (v : List Nat) (off x j : Nat) (h : j ≠ off) :
    byteAt (setUint8 v off x) j = byteAt v j := by
  unfold setUint8
  rw [byteAt_set, if_neg]
  omega

theorem byteAt_setUint16_outside (v : List Nat) (off x j : Nat) (h : j < off ∨ off + 2 ≤ j) :
    byteAt (setUint16 v off x) j = byteAt v j := by
  unfold setUint16
  simp only [byteAt_set]
  rw [if_neg (by omega), if_neg (by omega)]

theorem byteAt_setUint32_outside (v : List Nat) (off x j : Nat) (h : j < off ∨ off + 4 ≤ j) :
    byteAt (setUint32 v off x) j = byteAt v j := by
  unfold setUint32
  simp only [byteAt_set]
  rw [if_neg (by omega), if_neg (by omega), if_neg (by omega), if_neg (by omega)]

theorem byteAt_setInt16_outside (v : List Nat) (off : Nat) (q : ℚ) (j : Nat)
    (h : j < off ∨ off + 2 ≤ j) :
    byteAt (setInt16 v off q) j = byteAt v j := by
  unfold setInt16
  simp only [byteAt_set]
  rw [if_neg (by omega), if_neg (by omega)]

theorem byteAt_writeChars_outside (cs : List Char) (v : List Nat) (off j : Nat)
    (h : j < off ∨ off + cs.length ≤ j) :
    byteAt (writeChars v off cs) j = byteAt v j := by
  induction cs generalizing v off with
  | nil => rfl
  | cons c cs ih =>
    rw [writeChars, ih, byteAt_setUint8_outside]
    · simp only [List.length_cons] at h; omega
    · simp only [List.length_cons] at h; omega

theorem byteAt_writeString_outside (v : List Nat) (off : Nat) (str : String) (j : Nat)
    (h : j < off ∨ off + str.length ≤ j) :
    byteAt (writeString v off str) j = byteAt v j :=
  byteAt_writeChars_outside _ _ _ _ h

theorem getUint16_setUint16 (v : List Nat) (off x : Nat) (h : off + 1 < v.length) :
    getUint16 (setUint16 v off x) off = x % 65536 := by
  have h0 : off < v.length := by omega
  unfold getUint16 setUint16
  simp only
  rw [byteAt_set_ne _ _ _ _ (by omega), byteAt_set_self _ _ _ h0,
    byteAt_set_self _ _ _ (by rw [List.length_set]; exact h)]
  omega

theorem getUint32_setUint32 (v : List Nat) (off x : Nat) (h : off + 3 < v.length) :
    getUint32 (setUint32 v off x) off = x % 4294967296 := by
  unfold getUint32 setUint32
  simp only
  rw [byteAt_set_ne _ _ _ _ (by omega), byteAt_set_ne _ _ _ _ (by omega),
    byteAt_set_ne _ _ _ _ (by omega), byteAt_set_self _ _ _ (by omega),
    byteAt_set_ne _ _ _ _ (by omega), byteAt_set_ne _ _ _ _ (by omega),
    byteAt_set_self _ _ _ (by rw [List.length_set]; omega),
    byteAt_set_ne _ _ _ _ (by omega),
    byteAt_set_self _ _ _ (by rw [List.length_set, List.length_set]; omega),
    byteAt_set_self _ _ _ (by rw [List.length_set, List.length_set, List.length_set]; omega)]
  omega

theorem getUint16_setInt16 (v : List Nat) (off : Nat) (q : ℚ) (h : off + 1 < v.length) :
    getUint16 (setInt16 v off q) off = toUint16 q := by
  unfold getUint16 setInt16
  simp only
  rw [byteAt_set_ne _ _ _ _ (by omega), byteAt_set_self _ _ _ (by omega),
    byteAt_set_self _ _ _ (by rw [List.length_set]; exact h)]
  have : toUint16 q < 65536 := by
    unfold toUint16
    omega
  omega

theorem getUint16_congr (v w : List Nat) (off : Nat)
    (h : ∀ j, off ≤ j → j < off + 2 → byteAt v j = byteAt w j) :
    getUint16 v off = getUint16 w off := by
  unfold getUint16
  rw [h off (by omega) (by omega), h (off + 1) (by omega) (by omega)]

theorem getUint32_congr (v w : List Nat) (off : Nat)
    (h : ∀ j, off ≤ j → j < off + 4 → byteAt v j = byteAt w j) :
    getUint32 v off = getUint32 w off := by
  unfold getUint32
  rw [h off (by omega) (by omega), h (off + 1) (by omega) (by omega),
    h (off + 2) (by omega) (by omega), h (off + 3) (by omega) (by omega)]

theorem getInt16_congr (v w : List Nat) (off : Nat)
    (h : ∀ j, off ≤ j → j < off + 2 → byteAt v j = byteAt w j) :
    getInt16 v off = getInt16 w off := by
  unfold getInt16
  rw [getUint16_congr v w off h]

/-- The value the encoder passes to `setInt16` is the clamped sample times the
scale chosen by the sign of the original sample. -/
theorem scaled_sample_eq (s : ℚ) :
    (if max (-1) (min 1 s) < 0 then max (-1) (min 1 s) * 0x8000
      else max (-1) (min 1 s) * 0x7FFF) =
    max (-1) (min 1 s) * (if s < 0 then 32768 else 32767) := by
  by_cases hs : s < 0
  · have : max (-1) (min 1 s) < 0 := by
      rw [max_lt_iff]
      exact ⟨by norm_num, lt_of_le_of_lt (min_le_right _ _) hs⟩
    rw [if_pos this, if_pos hs]
  · have : ¬ max (-1) (min 1 s) < 0 := by
      rw [not_lt]
      exact le_trans (le_min (by norm_num) (not_lt.mp hs)) (le_max_right _ _)
    rw [if_neg this, if_neg hs]

/-- The 16-bit value of any sample fits a signed 16-bit integer. -/
theorem pcm16_bounds (s : ℚ) : -32768 ≤ pcm16 s ∧ pcm16 s ≤ 32767 := by
  have hlo : (-1 : ℚ) ≤ max (-1) (min 1 s) := le_max_left _ _
  have hhi : max (-1) (min 1 s) ≤ 1 := max_le (by norm_num) (min_le_left _ _)
  unfold pcm16
  by_cases hs : s < 0
  · have hneg : max (-1) (min 1 s) < 0 := by
      rw [max_lt_iff]
      exact ⟨by norm_num, lt_of_le_of_lt (min_le_right _ _) hs⟩
    rw [if_pos hs]
    have hv : max (-1) (min 1 s) * 32768 < 0 := by linarith
    rw [trunc_of_neg hv]
    constructor
    · have h1 : ((-32768 : ℤ) : ℚ) ≤ max (-1) (min 1 s) * 32768 := by
        push_cast; linarith
      exact Int.cast_le.mp (le_trans h1 (Int.le_ceil _))
    · rw [Int.ceil_le]
      push_cast
      linarith
  · have hnn : 0 ≤ max (-1) (min 1 s) :=
      le_trans (le_min (by norm_num) (not_lt.mp hs)) (le_max_right _ _)
    rw [if_neg hs]
    have hv : 0 ≤ max (-1) (min 1 s) * 32767 := by linarith
    rw [trunc_of_nonneg hv]
    constructor
    · rw [Int.le_floor]
      push_cast
      linarith
    · have h1 : max (-1) (min 1 s) * 32767 ≤ ((32767 : ℤ) : ℚ) := by
        push_cast; linarith
      exact Int.cast_le.mp (le_trans (Int.floor_le _) h1)

theorem toInt16_of_bounds (z : ℤ) (h1 : -32768 ≤ z) (h2 : z ≤ 32767) :
    (if (z % 65536).toNat < 32768 then (((z % 65536).toNat : ℕ) : ℤ)
      else (((z % 65536).toNat : ℕ) : ℤ) - 65536) = z := by
  split_ifs <;> omega

/-- Reading back a sample just written gives its 16-bit value. -/
theorem getInt16_writeSample (buffer : AudioBuffer) (i channel : Nat) (acc : List Nat × Nat)
    (h : acc.2 + 1 < acc.1.length) :
    getInt16 (writeSample buffer i acc channel).1 acc.2 =
      pcm16 (buffer.getChannelData channel i) := by
  have hb := pcm16_bounds (buffer.getChannelData channel i)
  unfold writeSample getInt16
  simp only
  rw [getUint16_setInt16 _ _ _ h, scaled_sample_eq]
  exact toInt16_of_bounds _ hb.1 hb.2

theorem length_wavHeader (buffer : AudioBuffer) :
    (wavHeader buffer).length = 44 + buffer.length * buffer.numberOfChannels * 2 := by
  simp [wavHeader, length_setUint32, length_setUint16, length_writeString]

theorem wavHeader_channels (buffer : AudioBuffer) :
    getUint16 (wavHeader buffer) 22 = buffer.numberOfChannels % 65536 := by
  unfold getUint16 wavHeader
  simp (disch := decide) only [byteAt_setUint32_outside, byteAt_writeString_outside,
    byteAt_setUint16_outside]
  exact getUint16_setUint16 _ 22 _
    (by simp only [length_setUint32, length_setUint16, length_writeString,
      List.length_replicate]; omega)

theorem wavHeader_sampleRate (buffer : AudioBuffer) :
    getUint32 (wavHeader buffer) 24 = buffer.sampleRate % 4294967296 := by
  unfold getUint32 wavHeader
  simp (disch := decide) only [byteAt_setUint32_outside, byteAt_writeString_outside,
    byteAt_setUint16_outside]
  exact getUint32_setUint32 _ 24 _
    (by simp only [length_setUint32, length_setUint16, length_writeString,
      List.length_replicate]; omega)

theorem wavHeader_dataLength (buffer : AudioBuffer) :
    getUint32 (wavHeader buffer) 40 =
      buffer.length * buffer.numberOfChannels * 2 % 4294967296 := by
  unfold wavHeader
  exact getUint32_setUint32 _ 40 _
    (by simp only [length_setUint32, length_setUint16, length_writeString,
      List.length_replicate]; omega)

/-- The inner loop: after `c` channels of frame `i` the running offset, the
length, the header bytes and every sample written so far are as expected. -/
theorem writeSample_fold (buffer : AudioBuffer) (view0 : List Nat) (i : Nat)
    (acc : List Nat × Nat)
    (hlen : 44 + 2 * (i * buffer.numberOfChannels + buffer.numberOfChannels) ≤ view0.length)
    (hoff : acc.2 = 44 + 2 * (i * buffer.numberOfChannels))
    (hl : acc.1.length = view0.length)
    (hhead : ∀ j, j < 44 → byteAt acc.1 j = byteAt view0 j)
    (hdone : ∀ k, k < i * buffer.numberOfChannels → getInt16 acc.1 (44 + 2 * k) =
      pcm16 (buffer.getChannelData (k % buffer.numberOfChannels)
        (k / buffer.numberOfChannels)))
    (c : Nat) (hc : c ≤ buffer.numberOfChannels) :
    ((List.range c).foldl (writeSample buffer i) acc).2 =
        44 + 2 * (i * buffer.numberOfChannels + c) ∧
    ((List.range c).foldl (writeSample buffer i) acc).1.length = view0.length ∧
    (∀ j, j < 44 → byteAt ((List.range c).foldl (writeSample buffer i) acc).1 j =
      byteAt view0 j) ∧
    ∀ k, k < i * buffer.numberOfChannels + c →
      getInt16 ((List.range c).foldl (writeSample buffer i) acc).1 (44 + 2 * k) =
        pcm16 (buffer.getChannelData (k % buffer.numberOfChannels)
          (k / buffer.numberOfChannels)) := by
  induction c with
  | zero => exact ⟨by simpa using hoff, by simpa using hl, by simpa using hhead,
      by simpa using hdone⟩
  | succ c ih =>
    obtain ⟨h1, h2, h3, h4⟩ := ih (by omega)
    rw [List.range_succ, List.foldl_append]
    simp only [List.foldl_cons, List.foldl_nil]
    generalize (List.range c).foldl (writeSample buffer i) acc = r at h1 h2 h3 h4
    have hCpos : 0 < buffer.numberOfChannels := by omega
    refine ⟨?_, ?_, ?_, ?_⟩
    · show r.2 + 2 = _
      omega
    · show (setInt16 r.1 r.2 _).length = _
      rw [length_setInt16, h2]
    · intro j hj
      show byteAt (setInt16 r.1 r.2 _) j = _
      rw [byteAt_setInt16_outside _ _ _ _ (by omega), h3 j hj]
    · intro k hk
      by_cases hkc : k < i * buffer.numberOfChannels + c
      · rw [← h4 k hkc]
        apply getInt16_congr
        intro j hj1 hj2
        show byteAt (setInt16 r.1 r.2 _) j = _
        rw [byteAt_setInt16_outside _ _ _ _ (by omega)]
      · have hk2 : k = i * buffer.numberOfChannels + c := by omega
        have hmod : k % buffer.numberOfChannels = c := by
          rw [hk2, Nat.add_comm, Nat.add_mul_mod_self_right]
          exact Nat.mod_eq_of_lt (by omega)
        have hdiv : k / buffer.numberOfChannels = i := by
          rw [hk2, Nat.add_comm, Nat.add_mul_div_right _ _ hCpos,
            Nat.div_eq_of_lt (by omega), Nat.zero_add]
        rw [hmod, hdiv]
        have := getInt16_writeSample buffer i c r (by omega)
        rw [h1] at this
        rw [hk2]
        exact this

/-- The outer loop: after `i` frames every sample of these frames is in place
and the header is untouched. -/
theorem writeFrame_fold (buffer : AudioBuffer) (view0 : List Nat)
    (hlen : 44 + 2 * (buffer.length * buffer.numberOfChannels) ≤ view0.length)
    (i : Nat) (hi : i ≤ buffer.length) :
    ((List.range i).foldl (writeFrame buffer) (view0, 44)).2 =
        44 + 2 * (i * buffer.numberOfChannels) ∧
    ((List.range i).foldl (writeFrame buffer) (view0, 44)).1.length = view0.length ∧
    (∀ j, j < 44 → byteAt ((List.range i).foldl (writeFrame buffer) (view0, 44)).1 j =
      byteAt view0 j) ∧
    ∀ k, k < i * buffer.numberOfChannels →
      getInt16 ((List.range i).foldl (writeFrame buffer) (view0, 44)).1 (44 + 2 * k) =
        pcm16 (buffer.getChannelData (k % buffer.numberOfChannels)
          (k / buffer.numberOfChannels)) := by
  induction i with
  | zero =>
    refine ⟨by simp, by simp, by simp, ?_⟩
    intro k hk
    simp at hk
  | succ i ih =>
    obtain ⟨h1, h2, h3, h4⟩ := ih (by omega)
    rw [List.range_succ, List.foldl_append]
    simp only [List.foldl_cons, List.foldl_nil]
    generalize (List.range i).foldl (writeFrame buffer) (view0, 44) = r at h1 h2 h3 h4
    have hle : (i + 1) * buffer.numberOfChannels ≤ buffer.length * buffer.numberOfChannels :=
      Nat.mul_le_mul_right _ hi
    have hsucc : (i + 1) * buffer.numberOfChannels =
        i * buffer.numberOfChannels + buffer.numberOfChannels := Nat.succ_mul _ _
    have := writeSample_fold buffer view0 i r (by omega) h1 h2 h3 h4 buffer.numberOfChannels
      (le_refl _)
    unfold writeFrame
    rw [hsucc]
    exact this

/-! ## The encoder claims -/

/-- C10 (WAV round trip). For a buffer with `C` channels (`1 ≤ C < 2^16`),
sample rate `R < 2^32` and `N` frames with `N * C * 2 + 36 < 2^32`, reading
the bytes written by `audioBufferToBlob` as a canonical 44-byte-header 16-bit
PCM WAV file recovers channel count `C`, sample rate `R`, frame count `N`
(data length divided by `2 * C`), and for every frame `i` and channel `c` the
16-bit value `trunc (clamp s * (32768 if s < 0 else 32767))` of the sample
`s` before encoding. -/
theorem wav_round_trip (buffer : AudioBuffer)
    (hC1 : 1 ≤ buffer.numberOfChannels) (hC : buffer.numberOfChannels < 2 ^ 16)
    (hR : buffer.sampleRate < 2 ^ 32)
    (hN : buffer.length * buffer.numberOfChannels * 2 + 36 < 2 ^ 32) :
    (decodeCanonicalWav (audioBufferToBlob buffer)).numberOfChannels =
      buffer.numberOfChannels ∧
    (decodeCanonicalWav (audioBufferToBlob buffer)).sampleRate = buffer.sampleRate ∧
    (decodeCanonicalWav (audioBufferToBlob buffer)).length = buffer.length ∧
    ∀ i c, i < buffer.length → c < buffer.numberOfChannels →
      (decodeCanonicalWav (audioBufferToBlob buffer)).sample i c =
        pcm16 (buffer.getChannelData c i) := by
  have hlen : 44 + 2 * (buffer.length * buffer.numberOfChannels) ≤ (wavHeader buffer).length := by
    rw [length_wavHeader]; omega
  obtain ⟨_, _, hhead, hdone⟩ := writeFrame_fold buffer (wavHeader buffer) hlen buffer.length
    (le_refl _)
  have hch : getUint16 (audioBufferToBlob buffer) 22 = buffer.numberOfChannels := by
    unfold audioBufferToBlob
    rw [getUint16_congr _ (wavHeader buffer) 22 (fun j _ hj => hhead j (by omega)),
      wavHeader_channels]
    exact Nat.mod_eq_of_lt (by omega)
  have hsr : getUint32 (audioBufferToBlob buffer) 24 = buffer.sampleRate := by
    unfold audioBufferToBlob
    rw [getUint32_congr _ (wavHeader buffer) 24 (fun j _ hj => hhead j (by omega)),
      wavHeader_sampleRate]
    exact Nat.mod_eq_of_lt (by omega)
  have hdl : getUint32 (audioBufferToBlob buffer) 40 =
      buffer.length * buffer.numberOfChannels * 2 := by
    unfold audioBufferToBlob
    rw [getUint32_congr _ (wavHeader buffer) 40 (fun j _ hj => hhead j (by omega)),
      wavHeader_dataLength]
    exact Nat.mod_eq_of_lt (by omega)
  refine ⟨hch, hsr, ?_, ?_⟩
  · show getUint32 (audioBufferToBlob buffer) 40 / (2 * getUint16 (audioBufferToBlob buffer) 22) =
      buffer.length
    rw [hdl, hch, show buffer.length * buffer.numberOfChannels * 2 =
      buffer.length * (2 * buffer.numberOfChannels) by ring]
    exact Nat.mul_div_cancel _ (by omega)
  · intro i c hi hc
    show getInt16 (audioBufferToBlob buffer)
      (44 + 2 * (i * getUint16 (audioBufferToBlob buffer) 22 + c)) = _
    rw [hch]
    have hlt : i * buffer.numberOfChannels + c < buffer.length * buffer.numberOfChannels := by
      have h1 : (i + 1) * buffer.numberOfChannels ≤ buffer.length * buffer.numberOfChannels :=
        Nat.mul_le_mul_right _ hi
      rw [Nat.succ_mul] at h1
      omega
    have h := hdone (i * buffer.numberOfChannels + c) hlt
    have hmod : (i * buffer.numberOfChannels + c) % buffer.numberOfChannels = c := by
      rw [Nat.add_comm, Nat.add_mul_mod_self_right]
      exact Nat.mod_eq_of_lt hc
    have hdiv : (i * buffer.numberOfChannels + c) / buffer.numberOfChannels = i := by
      rw [Nat.add_comm, Nat.add_mul_div_right _ _ (by omega : 0 < buffer.numberOfChannels),
        Nat.div_eq_of_lt hc, Nat.zero_add]
    rw [hmod, hdiv] at h
    exact h

theorem wav_round_trip_witness :
    (decodeCanonicalWav (audioBufferToBlob sampleBuffer)).numberOfChannels = 2 ∧
    (decodeCanonicalWav (audioBufferToBlob sampleBuffer)).sampleRate = 22050 ∧
    (decodeCanonicalWav (audioBufferToBlob sampleBuffer)).length = 3 ∧
    (decodeCanonicalWav (audioBufferToBlob sampleBuffer)).sample 2 0 = 16383 ∧
    (decodeCanonicalWav (audioBufferToBlob sampleBuffer)).sample 2 1 = -8192 := by
  have h := wav_round_trip sampleBuffer (by norm_num [sampleBuffer]) (by norm_num [sampleBuffer])
    (by norm_num [sampleBuffer]) (by norm_num [sampleBuffer])
  refine ⟨h.1, h.2.1, h.2.2.1, ?_, ?_⟩
  · rw [h.2.2.2 2 0 (by norm_num [sampleBuffer]) (by norm_num [sampleBuffer])]
    have hv : (0 : ℚ) ≤ 32767 / 2 := by norm_num
    have hf : ⌊(32767 : ℚ) / 2⌋ = 16383 := by
      rw [Int.floor_eq_iff]; norm_num
    have e : max (-1 : ℚ) (min 1 (1 / 2)) * (if (1 / 2 : ℚ) < 0 then 32768 else 32767) =
        32767 / 2 := by norm_num
    show pcm16 (if (0 : ℕ) = 0 then 1 / 2 else -1 / 4) = 16383
    rw [if_pos rfl]
    unfold pcm16
    rw [e, trunc_of_nonneg hv, hf]
  · rw [h.2.2.2 2 1 (by norm_num [sampleBuffer]) (by norm_num [sampleBuffer])]
    have hv : (-8192 : ℚ) < 0 := by norm_num
    have hf : ⌈(-8192 : ℚ)⌉ = -8192 := by
      rw [Int.ceil_eq_iff]; norm_num
    have e : max (-1 : ℚ) (min 1 (-1 / 4)) * (if (-1 / 4 : ℚ) < 0 then 32768 else 32767) =
        -8192 := by norm_num
    show pcm16 (if (1 : ℕ) = 0 then 1 / 2 else -1 / 4) = -8192
    rw [if_neg (by decide)]
    unfold pcm16
    rw [e, trunc_of_neg hv, hf]

/-! ## Auxiliary facts about the header -/

theorem setUint8_append (h t : List Nat) (off x : Nat) (hb : off < h.length) :
    setUint8 (h ++ t) off x = setUint8 h off x ++ t := by
  unfold setUint8
  rw [List.set_append_left _ _ hb]

theorem setUint16_append (h t : List Nat) (off x : Nat) (hb : off + 1 < h.length) :
    setUint16 (h ++ t) off x = setUint16 h off x ++ t := by
  unfold setUint16
  simp only
  rw [List.set_append_left _ _ (by omega),
    List.set_append_left _ _ (by rw [List.length_set]; omega)]

theorem setUint32_append (h t : List Nat) (off x : Nat) (hb : off + 3 < h.length) :
    setUint32 (h ++ t) off x = setUint32 h off x ++ t := by
  unfold setUint32
  simp only
  rw [List.set_append_left _ _ (by omega),
    List.set_append_left _ _ (by rw [List.length_set]; omega),
    List.set_append_left _ _ (by rw [List.length_set, List.length_set]; omega),
    List.set_append_left _ _ (by rw [List.length_set, List.length_set, List.length_set]; omega)]

theorem writeChars_append (cs : List Char) (h t : List Nat) (off : Nat)
    (hb : off + cs.length ≤ h.length) :
    writeChars (h ++ t) off cs = writeChars h off cs ++ t := by
  induction cs generalizing h off with
  | nil => rfl
  | cons c cs ih =>
    simp only [List.length_cons] at hb
    rw [writeChars, writeChars, setUint8_append _ _ _ _ (by omega),
      ih _ _ (by rw [length_setUint8]; omega)]

theorem writeString_append (h t : List Nat) (off : Nat) (str : String)
    (hb : off + str.length ≤ h.length) :
    writeString (h ++ t) off str = writeString h off str ++ t :=
  writeChars_append _ _ _ _ hb

/-- When every field fits its width, the header writes produce the canonical
header followed by the still-zero data area. -/
theorem wavHeader_eq (buffer : AudioBuffer)
    (hC : 2 * buffer.numberOfChannels < 2 ^ 16) (hR : buffer.sampleRate < 2 ^ 32)
    (hB : buffer.sampleRate * buffer.numberOfChannels * 2 < 2 ^ 32)
    (hN : 36 + 2 * buffer.length * buffer.numberOfChannels < 2 ^ 32) :
    wavHeader buffer =
      canonicalHeader buffer.numberOfChannels buffer.sampleRate buffer.length ++
        List.replicate (2 * buffer.length * buffer.numberOfChannels) 0 := by
  have e : buffer.length * buffer.numberOfChannels * 2 =
      2 * buffer.length * buffer.numberOfChannels := by ring
  have h1 : (36 + 2 * buffer.length * buffer.numberOfChannels) % 4294967296 =
      36 + 2 * buffer.length * buffer.numberOfChannels := Nat.mod_eq_of_lt (by omega)
  have h2 : buffer.numberOfChannels % 65536 = buffer.numberOfChannels :=
    Nat.mod_eq_of_lt (by omega)
  have h3 : buffer.sampleRate % 4294967296 = buffer.sampleRate := Nat.mod_eq_of_lt (by omega)
  have h4 : (buffer.sampleRate * buffer.numberOfChannels * 2) % 4294967296 =
      buffer.sampleRate * buffer.numberOfChannels * 2 := Nat.mod_eq_of_lt (by omega)
  have h5 : (buffer.numberOfChannels * 2) % 65536 = buffer.numberOfChannels * 2 :=
    Nat.mod_eq_of_lt (by omega)
  have h6 : (2 * buffer.length * buffer.numberOfChannels) % 4294967296 =
      2 * buffer.length * buffer.numberOfChannels := Nat.mod_eq_of_lt (by omega)
  have s1 : "RIFF".toList = ['R', 'I', 'F', 'F'] := rfl
  have s2 : "WAVE".toList = ['W', 'A', 'V', 'E'] := rfl
  have s3 : "fmt ".toList = ['f', 'm', 't', ' '] := rfl
  have s4 : "data".toList = ['d', 'a', 't', 'a'] := rfl
  unfold wavHeader canonicalHeader
  simp only [List.replicate_add, e]
  simp (disch := simp only [length_setUint32, length_setUint16, length_writeString,
      List.length_replicate, String.length]; decide) only
    [writeString_append, setUint32_append, setUint16_append]
  rw [List.append_left_inj]
  simp only [List.replicate, writeString, s1, s2, s3, s4, writeChars, setUint8, setUint16, setUint32,
    List.set_cons_succ, List.set_cons_zero, h1, h2, h3, h4, h5, h6, le32, le16,
    List.map_cons, List.map_nil, List.cons_append, List.nil_append]
  simp

theorem length_canonicalHeader (channels sampleRate frames : Nat) :
    (canonicalHeader channels sampleRate frames).length = 44 := by
  simp [canonicalHeader, le32, le16]

theorem byteAt_eq_getElem? (v : List Nat) (j : Nat) (h : j < v.length) :
    v[j]? = some (byteAt v j) := by
  unfold byteAt
  rw [List.getD_eq_getElem?_getD, List.getElem?_eq_getElem h]
  rfl

theorem take_eq_of_byteAt (n : Nat) (v w : List Nat) (hv : n ≤ v.length) (hw : n ≤ w.length)
    (h : ∀ j, j < n → byteAt v j = byteAt w j) : v.take n = w.take n := by
  apply List.ext_getElem?
  intro j
  by_cases hj : j < n
  · rw [List.getElem?_take_of_lt hj, List.getElem?_take_of_lt hj,
      byteAt_eq_getElem? v j (by omega), byteAt_eq_getElem? w j (by omega), h j hj]
  · rw [List.getElem?_eq_none (by rw [List.length_take]; omega),
      List.getElem?_eq_none (by rw [List.length_take]; omega)]

/-- The sample loops leave the length and the first 44 bytes as the header
writes made them, and store every sample. -/
theorem audioBufferToBlob_facts (buffer : AudioBuffer) :
    (audioBufferToBlob buffer).length = 44 + buffer.length * buffer.numberOfChannels * 2 ∧
    (audioBufferToBlob buffer).take 44 = (wavHeader buffer).take 44 ∧
    ∀ i c, i < buffer.length → c < buffer.numberOfChannels →
      getInt16 (audioBufferToBlob buffer) (44 + 2 * (i * buffer.numberOfChannels + c)) =
        pcm16 (buffer.getChannelData c i) := by
  have hlen : 44 + 2 * (buffer.length * buffer.numberOfChannels) ≤ (wavHeader buffer).length := by
    rw [length_wavHeader]; omega
  obtain ⟨_, hl, hhead, hdone⟩ := writeFrame_fold buffer (wavHeader buffer) hlen buffer.length
    (le_refl _)
  have hl2 : (audioBufferToBlob buffer).length =
      44 + buffer.length * buffer.numberOfChannels * 2 := by
    unfold audioBufferToBlob
    rw [hl, length_wavHeader]
  refine ⟨hl2, ?_, ?_⟩
  · apply take_eq_of_byteAt
    · omega
    · rw [length_wavHeader]; omega
    · exact hhead
  · intro i c hi hc
    have hlt : i * buffer.numberOfChannels + c < buffer.length * buffer.numberOfChannels := by
      have h1 : (i + 1) * buffer.numberOfChannels ≤ buffer.length * buffer.numberOfChannels :=
        Nat.mul_le_mul_right _ hi
      rw [Nat.succ_mul] at h1
      omega
    have h := hdone (i * buffer.numberOfChannels + c) hlt
    have hmod : (i * buffer.numberOfChannels + c) % buffer.numberOfChannels = c := by
      rw [Nat.add_comm, Nat.add_mul_mod_self_right]
      exact Nat.mod_eq_of_lt hc
    have hdiv : (i * buffer.numberOfChannels + c) / buffer.numberOfChannels = i := by
      rw [Nat.add_comm, Nat.add_mul_div_right _ _ (by omega : 0 < buffer.numberOfChannels),
        Nat.div_eq_of_lt hc, Nat.zero_add]
    rw [hmod, hdiv] at h
    exact h

/-- C11 (WAV header layout). For a buffer with `C` channels, sample rate `R`
and `N` frames whose header fields fit their widths, `audioBufferToBlob`
writes exactly `44 + 2 * N * C` bytes, and the first 44 are: "RIFF",
little-endian u32 `36 + 2 * N * C` (the total size minus 8), "WAVE", "fmt ",
u32 16, u16 1, u16 `C`, u32 `R`, u32 `R * C * 2`, u16 `C * 2`, u16 16,
"data", u32 `2 * N * C`. -/
theorem wav_header_layout (buffer : AudioBuffer)
    (hC : 2 * buffer.numberOfChannels < 2 ^ 16) (hR : buffer.sampleRate < 2 ^ 32)
    (hB : buffer.sampleRate * buffer.numberOfChannels * 2 < 2 ^ 32)
    (hN : 36 + 2 * buffer.length * buffer.numberOfChannels < 2 ^ 32) :
    (audioBufferToBlob buffer).length = 44 + 2 * buffer.length * buffer.numberOfChannels ∧
    36 + 2 * buffer.length * buffer.numberOfChannels = (audioBufferToBlob buffer).length - 8 ∧
    (audioBufferToBlob buffer).take 44 =
      canonicalHeader buffer.numberOfChannels buffer.sampleRate buffer.length := by
  obtain ⟨hl, ht, _⟩ := audioBufferToBlob_facts buffer
  have e : buffer.length * buffer.numberOfChannels * 2 =
      2 * buffer.length * buffer.numberOfChannels := by ring
  rw [e] at hl
  refine ⟨hl, by omega, ?_⟩
  rw [ht, wavHeader_eq buffer hC hR hB hN]
  exact List.take_left' (length_canonicalHeader _ _ _)

theorem wav_header_layout_witness :
    (audioBufferToBlob sampleBuffer).length = 56 ∧
    (audioBufferToBlob sampleBuffer).take 44 =
      [82, 73, 70, 70, 48, 0, 0, 0, 87, 65, 86, 69, 102, 109, 116, 32, 16, 0, 0, 0, 1, 0, 2, 0,
       34, 86, 0, 0, 136, 88, 1, 0, 4, 0, 16, 0, 100, 97, 116, 97, 12, 0, 0, 0] := by
  have h := wav_header_layout sampleBuffer (by norm_num [sampleBuffer])
    (by norm_num [sampleBuffer]) (by norm_num [sampleBuffer]) (by norm_num [sampleBuffer])
  have s1 : "RIFF".toList.map Char.toNat = [82, 73, 70, 70] := by decide
  have s2 : "WAVE".toList.map Char.toNat = [87, 65, 86, 69] := by decide
  have s3 : "fmt ".toList.map Char.toNat = [102, 109, 116, 32] := by decide
  have s4 : "data".toList.map Char.toNat = [100, 97, 116, 97] := by decide
  refine ⟨h.1, ?_⟩
  rw [h.2.2]
  simp only [canonicalHeader, s1, s2, s3, s4, le32, le16, sampleBuffer]
  norm_num

theorem pcm16_of_le_neg_one {s : ℚ} (h : s ≤ -1) : pcm16 s = -32768 := by
  unfold pcm16
  have hs : s < 0 := by linarith
  have hc : max (-1) (min 1 s) = -1 := by
    rw [max_eq_left]
    exact le_trans (min_le_right _ _) h
  rw [hc, if_pos hs, trunc_of_neg (by norm_num)]
  rw [Int.ceil_eq_iff]
  norm_num

theorem pcm16_of_one_le {s : ℚ} (h : 1 ≤ s) : pcm16 s = 32767 := by
  unfold pcm16
  have hs : ¬ s < 0 := by linarith
  have hc : max (-1) (min 1 s) = 1 := by
    rw [min_eq_left h, max_eq_right (by norm_num)]
  rw [hc, if_neg hs, trunc_of_nonneg (by norm_num)]
  rw [Int.floor_eq_iff]
  norm_num

theorem pcm16_zero : pcm16 0 = 0 := by
  unfold pcm16
  have hc : max (-1 : ℚ) (min 1 0) = 0 := by
    rw [min_eq_right (by norm_num), max_eq_right (by norm_num)]
  rw [hc, if_neg (by norm_num), trunc_of_nonneg (by norm_num)]
  rw [Int.floor_eq_iff]
  norm_num

/-- C12 (WAV sample encoding). For every frame `i` and channel `c` of a
`C`-channel buffer, the little-endian signed 16-bit value at byte offset
`44 + 2 * (i * C + c)` of the output is the sample clamped to [-1, 1], scaled
by 32768 when negative and by 32767 otherwise, and truncated toward zero. It
lies in [-32768, 32767]; samples at or below -1 give -32768, 0 gives 0 and
samples at or above 1 give 32767. -/
theorem wav_sample_encoding (buffer : AudioBuffer) (i c : Nat)
    (hi : i < buffer.length) (hc : c < buffer.numberOfChannels) :
    getInt16 (audioBufferToBlob buffer) (44 + 2 * (i * buffer.numberOfChannels + c)) =
      trunc (max (-1) (min 1 (buffer.getChannelData c i)) *
        (if buffer.getChannelData c i < 0 then 32768 else 32767)) ∧
    -32768 ≤ getInt16 (audioBufferToBlob buffer) (44 + 2 * (i * buffer.numberOfChannels + c)) ∧
    getInt16 (audioBufferToBlob buffer) (44 + 2 * (i * buffer.numberOfChannels + c)) ≤ 32767 ∧
    (buffer.getChannelData c i ≤ -1 →
      getInt16 (audioBufferToBlob buffer) (44 + 2 * (i * buffer.numberOfChannels + c)) =
        -32768) ∧
    (buffer.getChannelData c i = 0 →
      getInt16 (audioBufferToBlob buffer) (44 + 2 * (i * buffer.numberOfChannels + c)) = 0) ∧
    (1 ≤ buffer.getChannelData c i →
      getInt16 (audioBufferToBlob buffer) (44 + 2 * (i * buffer.numberOfChannels + c)) =
        32767) := by
  have h := (audioBufferToBlob_facts buffer).2.2 i c hi hc
  rw [h]
  refine ⟨rfl, (pcm16_bounds _).1, (pcm16_bounds _).2, pcm16_of_le_neg_one, ?_, pcm16_of_one_le⟩
  intro h0
  rw [h0]
  exact pcm16_zero

theorem wav_sample_encoding_witness :
    -32768 ≤ getInt16 (audioBufferToBlob sampleBuffer)
      (44 + 2 * (2 * sampleBuffer.numberOfChannels + 1)) ∧
    getInt16 (audioBufferToBlob sampleBuffer)
      (44 + 2 * (2 * sampleBuffer.numberOfChannels + 1)) ≤ 32767 :=
  let h := wav_sample_encoding sampleBuffer 2 1 (by norm_num [sampleBuffer])
    (by norm_num [sampleBuffer])
  ⟨h.2.1, h.2.2.1⟩


/-! ## The pipeline claims -/

/-- C13 (normalize). For every index `i` of the raw buffer holding an 8-bit
value `b`, the source buffer `applyRadioFilter` builds holds `(b - 128) / 128`
at index `i` of its single channel; the value lies in [-1, 127/128], 128 maps
to 0, and the source buffer has as many samples as the raw buffer. -/
theorem normalize_sample (browser : Browser) (samBuffer : List Nat) (reverbIntensity : String)
    (i : Nat) (hi : i < samBuffer.length) (hb : samBuffer.getD i 0 < 256) :
    (radioFilterGraph browser samBuffer reverbIntensity).sourceBuffer.getChannelData 0 i =
      ((samBuffer.getD i 0 : ℚ) - 128) / 128 ∧
    -1 ≤ (radioFilterGraph browser samBuffer reverbIntensity).sourceBuffer.getChannelData 0 i ∧
    (radioFilterGraph browser samBuffer reverbIntensity).sourceBuffer.getChannelData 0 i ≤
      127 / 128 ∧
    (samBuffer.getD i 0 = 128 →
      (radioFilterGraph browser samBuffer reverbIntensity).sourceBuffer.getChannelData 0 i = 0) ∧
    (radioFilterGraph browser samBuffer reverbIntensity).sourceBuffer.length = samBuffer.length ∧
    (radioFilterGraph browser samBuffer reverbIntensity).sourceBuffer.numberOfChannels = 1 := by
  have hv : (radioFilterGraph browser samBuffer reverbIntensity).sourceBuffer.getChannelData 0 i =
      ((samBuffer.getD i 0 : ℚ) - 128) / 128 := by
    simp [radioFilterGraph, radioFilterSource, hi]
  have h0 : (0 : ℚ) ≤ (samBuffer.getD i 0 : ℚ) := Nat.cast_nonneg _
  have h1 : (samBuffer.getD i 0 : ℚ) ≤ 255 := by
    have : samBuffer.getD i 0 ≤ 255 := by omega
    exact_mod_cast this
  refine ⟨hv, ?_, ?_, ?_, rfl, rfl⟩
  · rw [hv, le_div_iff₀ (by norm_num)]; linarith
  · rw [hv, div_le_div_iff₀ (by norm_num) (by norm_num)]; linarith
  · intro h; rw [hv, h]; norm_num

theorem normalize_sample_witness :
    (radioFilterGraph sampleBrowser [0, 128, 255] "medium").sourceBuffer.getChannelData 0 1 =
      0 ∧
    (radioFilterGraph sampleBrowser [0, 128, 255] "medium").sourceBuffer.length = 3 :=
  let h := normalize_sample sampleBrowser [0, 128, 255] "medium" 1 (by decide) (by decide)
  ⟨h.2.2.2.1 (by decide), h.2.2.2.2.1⟩

theorem jsRound_intCast (n : ℤ) : jsRound (n : ℚ) = n := by
  unfold jsRound
  rw [Int.floor_int_add]
  have : ⌊(1 : ℚ) / 2⌋ = 0 := by
    rw [Int.floor_eq_iff]; norm_num
  rw [this, add_zero]

theorem makeBitCrusherCurve_getElem? (bits i : Nat) (hi : i < 256) :
    (makeBitCrusherCurve bits)[i]? =
      some ((jsRound ((((i : ℚ) / 256) * 2 - 1) / (1 / 2) ^ bits) : ℚ) * (1 / 2) ^ bits) := by
  unfold makeBitCrusherCurve
  simp only [List.getElem?_map, List.getElem?_range hi, Option.map_some', Nat.cast_ofNat]

theorem crusher_quotient (i : Nat) :
    (((i : ℚ) / 256) * 2 - 1) / (1 / 2) ^ 8 = ((2 * (i : ℤ) - 256 : ℤ) : ℚ) := by
  push_cast
  norm_num
  ring

/-- C14 (bit-crush table). The curve the pipeline gives its wave shaper is
`makeBitCrusherCurve 8`, a table of 256 entries over the inputs
`x = i / 256 * 2 - 1`; with `q = 2^-8` entry `i` is `round (x / q) * q`, an
integer multiple of `q` that lies in [-1, 1]. -/
theorem bit_crush_table (browser : Browser) (samBuffer : List Nat) (reverbIntensity : String)
    (i : Nat) (hi : i < 256) :
    (radioFilterGraph browser samBuffer reverbIntensity).curve = makeBitCrusherCurve 8 ∧
    (makeBitCrusherCurve 8).length = 256 ∧
    (makeBitCrusherCurve 8)[i]? =
      some ((round ((((i : ℚ) / 256) * 2 - 1) / (1 / 2) ^ 8) : ℚ) * (1 / 2) ^ 8) ∧
    (∃ m : ℤ, (makeBitCrusherCurve 8)[i]? = some ((m : ℚ) * (1 / 2) ^ 8)) ∧
    (∀ y, (makeBitCrusherCurve 8)[i]? = some y → -1 ≤ y ∧ y ≤ 1) := by
  have hq := crusher_quotient i
  have he : (makeBitCrusherCurve 8)[i]? = some (((2 * (i : ℤ) - 256 : ℤ) : ℚ) * (1 / 2) ^ 8) := by
    rw [makeBitCrusherCurve_getElem? 8 i hi, hq, jsRound_intCast]
  refine ⟨rfl, by simp [makeBitCrusherCurve], ?_, ⟨_, he⟩, ?_⟩
  · rw [he, hq, round_intCast]
  · intro y hy
    rw [he] at hy
    simp only [Option.some.injEq] at hy
    subst hy
    have h0 : (0 : ℚ) ≤ (i : ℚ) := Nat.cast_nonneg _
    have h1 : (i : ℚ) ≤ 255 := by
      have : i ≤ 255 := by omega
      exact_mod_cast this
    push_cast
    constructor <;> norm_num <;> linarith

theorem bit_crush_table_witness :
    (makeBitCrusherCurve 8).length = 256 ∧
    ∃ m : ℤ, (makeBitCrusherCurve 8)[128]? = some ((m : ℚ) * (1 / 2) ^ 8) :=
  let h := bit_crush_table sampleBrowser [] "medium" 128 (by decide)
  ⟨h.2.1, h.2.2.2.1⟩


theorem reverbParameters_subtle (R : ℚ) :
    reverbParameters R "subtle" = (R * (1 / 2), 2) := by
  simp [reverbParameters]

theorem reverbParameters_medium (R : ℚ) : reverbParameters R "medium" = (R * 1, 3) := by
  unfold reverbParameters
  rw [if_neg (by decide), if_neg (by decide)]

theorem reverbParameters_heavy (R : ℚ) : reverbParameters R "heavy" = (R * 2, 4) := by
  unfold reverbParameters
  rw [if_neg (by decide), if_pos rfl]

theorem createReverbImpulse_length_subtle (random : Nat → ℚ) (n : Nat) :
    (createReverbImpulse random n "subtle").length = n / 2 := by
  show ⌊(reverbParameters n "subtle").1⌋₊ = n / 2
  rw [reverbParameters_subtle]
  simp only
  rw [show (n : ℚ) * (1 / 2) = (n : ℚ) / ((2 : ℕ) : ℚ) by push_cast; ring]
  exact Nat.floor_div_eq_div n 2

theorem createReverbImpulse_length_medium (random : Nat → ℚ) (n : Nat) :
    (createReverbImpulse random n "medium").length = n := by
  show ⌊(reverbParameters n "medium").1⌋₊ = n
  rw [reverbParameters_medium]
  simp

theorem createReverbImpulse_length_heavy (random : Nat → ℚ) (n : Nat) :
    (createReverbImpulse random n "heavy").length = 2 * n := by
  show ⌊(reverbParameters n "heavy").1⌋₊ = 2 * n
  rw [reverbParameters_heavy]
  simp only
  rw [show (n : ℚ) * 2 = ((2 * n : ℕ) : ℚ) by push_cast; ring]
  exact Nat.floor_natCast _

/-- C15 (reverb parameters). For a context of sample rate `R`,
`createReverbImpulse` computes length `0.5 * R` with decay 2 for 'subtle',
`1.0 * R` with decay 3 for 'medium' and `2.0 * R` with decay 4 for 'heavy',
and treats every other intensity as 'medium'; the impulse buffer has two
channels and `⌊length⌋` frames, which at `R = 22050` is 11025, 22050 and
44100. -/
theorem reverb_parameters (random : Nat → ℚ) (R : Nat) (intensity : String)
    (h1 : intensity ≠ "subtle") (h2 : intensity ≠ "heavy") :
    reverbParameters R "subtle" = ((R : ℚ) * (1 / 2), 2) ∧
    reverbParameters R "medium" = ((R : ℚ) * 1, 3) ∧
    reverbParameters R "heavy" = ((R : ℚ) * 2, 4) ∧
    reverbParameters R intensity = reverbParameters R "medium" ∧
    createReverbImpulse random R intensity = createReverbImpulse random R "medium" ∧
    (createReverbImpulse random R "subtle").numberOfChannels = 2 ∧
    (createReverbImpulse random R "medium").numberOfChannels = 2 ∧
    (createReverbImpulse random R "heavy").numberOfChannels = 2 ∧
    (createReverbImpulse random R "subtle").length = R / 2 ∧
    (createReverbImpulse random R "medium").length = R ∧
    (createReverbImpulse random R "heavy").length = 2 * R ∧
    (createReverbImpulse random 22050 "subtle").length = 11025 ∧
    (createReverbImpulse random 22050 "medium").length = 22050 ∧
    (createReverbImpulse random 22050 "heavy").length = 44100 := by
  have p4 : reverbParameters R intensity = reverbParameters R "medium" := by
    rw [reverbParameters_medium]
    unfold reverbParameters
    rw [if_neg h1, if_neg h2]
  refine ⟨reverbParameters_subtle _, reverbParameters_medium _, reverbParameters_heavy _, p4,
    ?_, rfl, rfl, rfl, createReverbImpulse_length_subtle _ _,
    createReverbImpulse_length_medium _ _, createReverbImpulse_length_heavy _ _,
    createReverbImpulse_length_subtle _ _, createReverbImpulse_length_medium _ _,
    createReverbImpulse_length_heavy _ _⟩
  unfold createReverbImpulse
  rw [p4]

theorem reverb_parameters_witness :
    reverbParameters 22050 "loud" = reverbParameters 22050 "medium" ∧
    (createReverbImpulse sampleBrowser.random 22050 "subtle").length = 11025 :=
  let h := reverb_parameters sampleBrowser.random 22050 "loud" (by decide) (by decide)
  ⟨by simpa using h.2.2.2.1, h.2.2.2.2.2.2.2.2.2.2.2.1⟩


/-- C16 (impulse envelope). For every sample index `i` below the impulse
length, each channel of the impulse response holds `u * ((length - i) /
length) ^ decay` with `u = 2 * r - 1` in [-1, 1), `r` in [0, 1) being the
random value drawn for that sample and channel (left and right draw
separately); so its magnitude is at most `((length - i) / length) ^ decay`,
which is at most 1, equals 1 at `i = 0` and does not increase with `i`. -/
theorem impulse_envelope (random : Nat → ℚ) (R : Nat) (intensity : String) (i : Nat)
    (hr : ∀ n, 0 ≤ random n ∧ random n < 1)
    (hi : i < (createReverbImpulse random R intensity).length) :
    (createReverbImpulse random R intensity).getChannelData 0 i =
      (random (2 * i) * 2 - 1) *
        (((reverbParameters R intensity).1 - i) / (reverbParameters R intensity).1) ^
          (reverbParameters R intensity).2 ∧
    (createReverbImpulse random R intensity).getChannelData 1 i =
      (random (2 * i + 1) * 2 - 1) *
        (((reverbParameters R intensity).1 - i) / (reverbParameters R intensity).1) ^
          (reverbParameters R intensity).2 ∧
    (-1 ≤ random (2 * i) * 2 - 1 ∧ random (2 * i) * 2 - 1 < 1) ∧
    (-1 ≤ random (2 * i + 1) * 2 - 1 ∧ random (2 * i + 1) * 2 - 1 < 1) ∧
    |(createReverbImpulse random R intensity).getChannelData 0 i| ≤
      (((reverbParameters R intensity).1 - i) / (reverbParameters R intensity).1) ^
        (reverbParameters R intensity).2 ∧
    |(createReverbImpulse random R intensity).getChannelData 1 i| ≤
      (((reverbParameters R intensity).1 - i) / (reverbParameters R intensity).1) ^
        (reverbParameters R intensity).2 ∧
    (((reverbParameters R intensity).1 - i) / (reverbParameters R intensity).1) ^
      (reverbParameters R intensity).2 ≤ 1 ∧
    (((reverbParameters R intensity).1 - (0 : ℕ)) / (reverbParameters R intensity).1) ^
      (reverbParameters R intensity).2 = 1 ∧
    ∀ j, i ≤ j → j < (createReverbImpulse random R intensity).length →
      (((reverbParameters R intensity).1 - j) / (reverbParameters R intensity).1) ^
        (reverbParameters R intensity).2 ≤
      (((reverbParameters R intensity).1 - i) / (reverbParameters R intensity).1) ^
        (reverbParameters R intensity).2 := by
  have hi2 : i < ⌊(reverbParameters R intensity).1⌋₊ := hi
  generalize hL : (reverbParameters R intensity).1 = L at hi2 ⊢
  generalize hd : (reverbParameters R intensity).2 = d
  have hlen : (createReverbImpulse random R intensity).length = ⌊L⌋₊ := by
    rw [← hL]; rfl
  have hfl : ∀ j : Nat, j < ⌊L⌋₊ → (j : ℚ) + 1 ≤ L := by
    intro j hj
    have h1 : j + 1 ≤ ⌊L⌋₊ := hj
    have h2 : ((j + 1 : ℕ) : ℚ) ≤ L := (Nat.le_floor_iff' (by omega)).mp h1
    push_cast at h2
    exact h2
  have hLpos : 0 < L := by
    have := hfl i hi2
    have : (0 : ℚ) ≤ (i : ℚ) := Nat.cast_nonneg _
    linarith
  have hfrac : ∀ j : Nat, j < ⌊L⌋₊ → 0 ≤ (L - j) / L ∧ (L - j) / L ≤ 1 := by
    intro j hj
    have h1 := hfl j hj
    have h2 : (0 : ℚ) ≤ (j : ℚ) := Nat.cast_nonneg _
    constructor
    · exact div_nonneg (by linarith) (le_of_lt hLpos)
    · rw [div_le_one hLpos]; linarith
  have hpow0 : 0 ≤ ((L - i) / L) ^ d := pow_nonneg (hfrac i hi2).1 d
  have hpow1 : ((L - i) / L) ^ d ≤ 1 := pow_le_one₀ (hfrac i hi2).1 (hfrac i hi2).2
  have hu : ∀ n, -1 ≤ random n * 2 - 1 ∧ random n * 2 - 1 < 1 := by
    intro n
    have := hr n
    constructor <;> linarith
  have habs : ∀ n, |random n * 2 - 1| ≤ 1 := by
    intro n
    rw [abs_le]
    exact ⟨(hu n).1, le_of_lt (hu n).2⟩
  have hleft : (createReverbImpulse random R intensity).getChannelData 0 i =
      (random (2 * i) * 2 - 1) * ((L - i) / L) ^ d := by
    unfold createReverbImpulse
    simp only [hL, hd, if_pos hi2]
    simp
  have hright : (createReverbImpulse random R intensity).getChannelData 1 i =
      (random (2 * i + 1) * 2 - 1) * ((L - i) / L) ^ d := by
    unfold createReverbImpulse
    simp only [hL, hd, if_pos hi2]
    simp
  refine ⟨hleft, hright, hu _, hu _, ?_, ?_, hpow1, ?_, ?_⟩
  · rw [hleft, abs_mul, abs_of_nonneg hpow0]
    exact mul_le_of_le_one_left hpow0 (habs _)
  · rw [hright, abs_mul, abs_of_nonneg hpow0]
    exact mul_le_of_le_one_left hpow0 (habs _)
  · simp only [Nat.cast_zero, sub_zero]
    rw [div_self (ne_of_gt hLpos), one_pow]
  · intro j hij hj
    rw [hlen] at hj
    apply pow_le_pow_left₀ (hfrac j hj).1
    have : (i : ℚ) ≤ (j : ℚ) := by exact_mod_cast hij
    apply div_le_div_of_nonneg_right _ (le_of_lt hLpos)
    linarith

theorem impulse_envelope_witness :
    |(createReverbImpulse sampleBrowser.random 22050 "subtle").getChannelData 0 7| ≤
      (((reverbParameters 22050 "subtle").1 - (7 : ℕ)) / (reverbParameters 22050 "subtle").1) ^
        (reverbParameters 22050 "subtle").2 :=
  (impulse_envelope sampleBrowser.random 22050 "subtle" 7
    (by intro n; norm_num [sampleBrowser])
    (by rw [createReverbImpulse_length_subtle]; decide)).2.2.2.2.1

/-- C17 (dry/wet mix). `getReverbMix` is 0.1 for 'subtle', 0.2 for 'medium',
0.4 for 'heavy' and 0.2 for every other value; for every intensity
`applyRadioFilter` sets the wet gain to that ratio and the dry gain to one
minus it, so the two gains add up to 1 and the destination receives
`dry * (1 - wetRatio) + wet * wetRatio`. -/
theorem dry_wet_mix (browser : Browser) (samBuffer : List Nat) (intensity : String)
    (dry wet : ℚ) (h1 : intensity ≠ "subtle") (h2 : intensity ≠ "heavy") :
    getReverbMix "subtle" = 1 / 10 ∧ getReverbMix "medium" = 2 / 10 ∧
    getReverbMix "heavy" = 4 / 10 ∧ getReverbMix intensity = 2 / 10 ∧
    ∀ reverbIntensity : String,
      (radioFilterGraph browser samBuffer reverbIntensity).wetGain =
        getReverbMix reverbIntensity ∧
      (radioFilterGraph browser samBuffer reverbIntensity).dryGain =
        1 - getReverbMix reverbIntensity ∧
      (radioFilterGraph browser samBuffer reverbIntensity).dryGain +
        (radioFilterGraph browser samBuffer reverbIntensity).wetGain = 1 ∧
      destinationMix (radioFilterGraph browser samBuffer reverbIntensity) dry wet =
        dry * (1 - getReverbMix reverbIntensity) + wet * getReverbMix reverbIntensity := by
  refine ⟨by simp [getReverbMix], ?_, ?_, ?_, ?_⟩
  · unfold getReverbMix
    rw [if_neg (by decide), if_neg (by decide)]
  · unfold getReverbMix
    rw [if_neg (by decide), if_pos rfl]
  · unfold getReverbMix
    rw [if_neg h1, if_neg h2]
  · intro reverbIntensity
    refine ⟨rfl, rfl, ?_, rfl⟩
    show 1 - getReverbMix reverbIntensity + getReverbMix reverbIntensity = 1
    ring

theorem dry_wet_mix_witness :
    getReverbMix "loud" = 2 / 10 ∧
    (radioFilterGraph sampleBrowser [128] "heavy").dryGain +
      (radioFilterGraph sampleBrowser [128] "heavy").wetGain = 1 :=
  let h := dry_wet_mix sampleBrowser [128] "loud" 1 0 (by decide) (by decide)
  ⟨h.2.2.2.1, (h.2.2.2.2 "heavy").2.2.1⟩

/-- C18 (render duration). For every non-empty raw buffer of `N` samples,
`applyRadioFilter` returns a mono buffer of `N` frames at 22050 Hz and the
duration `N / 22050`, whatever the reverb intensity, the random values and
the rendered samples are: two runs on the same raw buffer report the same
duration. -/
theorem render_duration (b1 b2 : Browser) (r1 r2 : RadioFilterGraph → Nat → ℚ)
    (samBuffer : List Nat) (i1 i2 : String) (hne : samBuffer ≠ []) :
    ∃ a1 a2, applyRadioFilter b1 r1 samBuffer i1 = Except.ok a1 ∧
      applyRadioFilter b2 r2 samBuffer i2 = Except.ok a2 ∧
      a1.buffer.numberOfChannels = 1 ∧ a1.buffer.length = samBuffer.length ∧
      a1.buffer.sampleRate = 22050 ∧
      a1.duration = (samBuffer.length : ℚ) / 22050 ∧ a2.duration = a1.duration := by
  have hlen : ¬ samBuffer.length = 0 := by
    intro h
    exact hne (List.length_eq_zero.mp h)
  unfold applyRadioFilter
  rw [if_neg hlen, if_neg hlen]
  refine ⟨_, _, rfl, rfl, rfl, rfl, rfl, ?_, ?_⟩
  · simp [AudioBuffer.duration, radioFilterGraph, radioFilterSource]
  · simp [AudioBuffer.duration, radioFilterGraph, radioFilterSource]

theorem render_duration_witness :
    ∃ a1 a2, applyRadioFilter sampleBrowser silentRendering [128, 130, 126] "subtle" =
        Except.ok a1 ∧
      applyRadioFilter sampleBrowser silentRendering [128, 130, 126] "heavy" = Except.ok a2 ∧
      a1.buffer.length = 3 ∧ a2.duration = a1.duration :=
  let ⟨a1, a2, h1, h2, _, h4, _, _, h7⟩ := render_duration sampleBrowser sampleBrowser
    silentRendering silentRendering [128, 130, 126] "subtle" "heavy" (by decide)
  ⟨a1, a2, h1, h2, h4, h7⟩

/-! ## The authoring claims -/

/-- C19 (empty input). When the synthesizer is loaded and the raw buffer is
missing or empty, `generateTTS` alerts 'Failed to generate speech', returns
`null`, has called `applyRadioFilter` zero times and `sam.Speak` once (no
retry), and plays no preview; the add-TTS handler then leaves the timeline
as it was. -/
theorem empty_input (browser : Browser) (rendered : RadioFilterGraph → Nat → ℚ)
    (synth : Synthesizer) (text reverb : String) (previewOnly : Bool)
    (timelineItems : List TimelineItem) (id : String)
    (hloaded : synth.loaded = true)
    (hbuf : synth.buf8 text = none ∨ synth.buf8 text = some []) :
    (generateTTS browser rendered synth text reverb previewOnly).result = none ∧
    (generateTTS browser rendered synth text reverb previewOnly).filterCalls = 0 ∧
    (generateTTS browser rendered synth text reverb previewOnly).speakCalls = 1 ∧
    (generateTTS browser rendered synth text reverb previewOnly).alerts =
      ["Error generating TTS: Failed to generate speech"] ∧
    (generateTTS browser rendered synth text reverb previewOnly).previewPlayed = false ∧
    addTtsClick browser rendered synth timelineItems text reverb id = timelineItems := by
  have hg : ∀ p, generateTTS browser rendered synth text reverb p =
      { result := none, speakCalls := 1, filterCalls := 0,
        alerts := ["Error generating TTS: Failed to generate speech"],
        previewPlayed := false } := by
    intro p
    unfold generateTTS
    rcases hbuf with h | h
    · simp [hloaded, h]
    · simp [hloaded, h]
  refine ⟨by rw [hg], by rw [hg], by rw [hg], by rw [hg], by rw [hg], ?_⟩
  unfold addTtsClick
  rw [hg]
  simp

theorem empty_input_witness :
    (generateTTS sampleBrowser silentRendering muteSynthesizer "hello" "medium" false).result =
      none ∧
    addTtsClick sampleBrowser silentRendering muteSynthesizer [sampleClip 10] "hello" "medium"
      "id2" = [sampleClip 10] :=
  let h := empty_input sampleBrowser silentRendering muteSynthesizer "hello" "medium" false
    [sampleClip 10] "id2" rfl (Or.inr rfl)
  ⟨h.1, h.2.2.2.2.2⟩

/-- An entered trim start `a` is kept as it is: `a || 0` is `a`, also for `a = 0`. -/
theorem orElse_intCast_zero (a : ℤ) :
    orElse (Option.map (fun n : ℤ => (n : ℚ)) (some a)) 0 = a := by
  unfold orElse
  simp only [Option.map_some']
  split_ifs with h
  · exact h.symm
  · rfl

/-- A non-zero entered number wins over the default of `||`. -/
theorem orElse_intCast_ne_zero (b : ℤ) (hb : b ≠ 0) (d : ℚ) :
    orElse (Option.map (fun n : ℤ => (n : ℚ)) (some b)) d = b := by
  have hne : (b : ℚ) ≠ 0 := by exact_mod_cast hb
  unfold orElse
  simp only [Option.map_some', if_neg hne]

/-- An unparsable field (`NaN`) or an entered 0 gives the default of `||`. -/
theorem orElse_intCast_none_or_zero (x : Option ℤ) (h : x = none ∨ x = some 0) (d : ℚ) :
    orElse (Option.map (fun n : ℤ => (n : ℚ)) x) d = d := by
  rcases h with h | h <;> subst h <;> simp [orElse]

/-- C20, as the code has it. The confirm-track handler checks nothing: with
a track pending it appends exactly one external-clip item whatever the form
holds, with `duration = trimEnd - trimStart`; nothing is appended only when
no track is pending. The item takes the entered values as they are: its
`trimStart` is the entered integer, and 0 when the field does not parse; its
`trimEnd` is the entered integer when that is not 0, and the `duration`
recorded for the pending track when the field does not parse or holds 0. So
for entered integers `a` and `b` with `b ≠ 0` the duration is `b - a`
whatever their order or sign, and with a defaulted end or start it is
`data.duration - a`, `b`, or `data.duration`. When the entered trim values are
integers `s` and `e` with `0 ≤ s < e`, the item has `trimStart = s` and
`trimEnd = e`, and so `0 ≤ trimStart < trimEnd` and `duration > 0`. -/
theorem trim_values_unchecked (data : TrackData) (form : TrackForm)
    (timelineItems : List TimelineItem) (id : String) (s e : ℤ)
    (h0 : 0 ≤ s) (hlt : s < e) :
    (∃ item, (confirmTrackClick (some data) form timelineItems id).1 = timelineItems ++ [item] ∧
      item.type = "youtube" ∧ item.duration = item.trimEnd - item.trimStart ∧
      (form.trimStart = none → item.trimStart = 0) ∧
      (∀ a : ℤ, form.trimStart = some a → item.trimStart = (a : ℚ)) ∧
      (form.trimEnd = none ∨ form.trimEnd = some 0 → item.trimEnd = data.duration) ∧
      (∀ b : ℤ, b ≠ 0 → form.trimEnd = some b → item.trimEnd = (b : ℚ)) ∧
      (∀ a b : ℤ, b ≠ 0 → form.trimStart = some a → form.trimEnd = some b →
        item.duration = (b : ℚ) - (a : ℚ)) ∧
      (∀ a : ℤ, form.trimStart = some a → (form.trimEnd = none ∨ form.trimEnd = some 0) →
        item.duration = data.duration - (a : ℚ)) ∧
      (∀ b : ℤ, b ≠ 0 → form.trimStart = none → form.trimEnd = some b →
        item.duration = (b : ℚ)) ∧
      (form.trimStart = none → (form.trimEnd = none ∨ form.trimEnd = some 0) →
        item.duration = data.duration)) ∧
    (confirmTrackClick none form timelineItems id).1 = timelineItems ∧
    ∃ item, (confirmTrackClick (some data) { form with trimStart := some s, trimEnd := some e }
        timelineItems id).1 = timelineItems ++ [item] ∧
      item.type = "youtube" ∧ item.trimStart = (s : ℚ) ∧ item.trimEnd = (e : ℚ) ∧
      item.duration = item.trimEnd - item.trimStart ∧ 0 ≤ item.trimStart ∧
      item.trimStart < item.trimEnd ∧ 0 < item.duration := by
  have he0 : e ≠ 0 := by omega
  have hsq := orElse_intCast_zero s
  have heq := orElse_intCast_ne_zero e he0 data.duration
  have h0q : (0 : ℚ) ≤ s := by exact_mod_cast h0
  have hltq : (s : ℚ) < e := by exact_mod_cast hlt
  refine ⟨⟨_, rfl, rfl, rfl, ?_, ?_, ?_, ?_, ?_, ?_, ?_, ?_⟩,
    rfl, _, rfl, rfl, ?_, ?_, rfl, ?_, ?_, ?_⟩
  · intro h
    show orElse (Option.map (fun n : ℤ => (n : ℚ)) form.trimStart) 0 = 0
    rw [h]; rfl
  · intro a h
    show orElse (Option.map (fun n : ℤ => (n : ℚ)) form.trimStart) 0 = a
    rw [h]; exact orElse_intCast_zero a
  · intro h
    show orElse (Option.map (fun n : ℤ => (n : ℚ)) form.trimEnd) data.duration = data.duration
    exact orElse_intCast_none_or_zero _ h _
  · intro b hb h
    show orElse (Option.map (fun n : ℤ => (n : ℚ)) form.trimEnd) data.duration = b
    rw [h]; exact orElse_intCast_ne_zero b hb _
  · intro a b hb ha hb2
    show orElse (Option.map (fun n : ℤ => (n : ℚ)) form.trimEnd) data.duration -
      orElse (Option.map (fun n : ℤ => (n : ℚ)) form.trimStart) 0 = (b : ℚ) - a
    rw [ha, hb2, orElse_intCast_zero, orElse_intCast_ne_zero b hb]
  · intro a ha h
    show orElse (Option.map (fun n : ℤ => (n : ℚ)) form.trimEnd) data.duration -
      orElse (Option.map (fun n : ℤ => (n : ℚ)) form.trimStart) 0 = data.duration - a
    rw [orElse_intCast_none_or_zero _ h, ha, orElse_intCast_zero]
  · intro b hb ha h
    show orElse (Option.map (fun n : ℤ => (n : ℚ)) form.trimEnd) data.duration -
      orElse (Option.map (fun n : ℤ => (n : ℚ)) form.trimStart) 0 = b
    rw [ha, h, orElse_intCast_ne_zero b hb]
    show (b : ℚ) - 0 = b
    ring
  · intro ha h
    show orElse (Option.map (fun n : ℤ => (n : ℚ)) form.trimEnd) data.duration -
      orElse (Option.map (fun n : ℤ => (n : ℚ)) form.trimStart) 0 = data.duration
    rw [orElse_intCast_none_or_zero _ h, ha]
    show data.duration - 0 = data.duration
    ring
  · show orElse (Option.map (fun n : ℤ => (n : ℚ)) (some s)) 0 = s
    exact hsq
  · show orElse (Option.map (fun n : ℤ => (n : ℚ)) (some e)) data.duration = e
    exact heq
  · show 0 ≤ orElse (Option.map (fun n : ℤ => (n : ℚ)) (some s)) 0
    rw [hsq]; exact h0q
  · show orElse (Option.map (fun n : ℤ => (n : ℚ)) (some s)) 0 <
      orElse (Option.map (fun n : ℤ => (n : ℚ)) (some e)) data.duration
    rw [hsq, heq]; exact hltq
  · show 0 < orElse (Option.map (fun n : ℤ => (n : ℚ)) (some e)) data.duration -
      orElse (Option.map (fun n : ℤ => (n : ℚ)) (some s)) 0
    rw [hsq, heq]; linarith

theorem trim_values_unchecked_witness :
    (∃ item, (confirmTrackClick (some sampleTrack) reversedTrimForm [] "id1").1 = [] ++ [item] ∧
      item.duration = ((10 : ℤ) : ℚ) - ((50 : ℤ) : ℚ)) ∧
    ∃ item, (confirmTrackClick (some sampleTrack)
        { reversedTrimForm with trimStart := some 10, trimEnd := some 50 } [] "id1").1 =
        [] ++ [item] ∧
      item.trimStart = ((10 : ℤ) : ℚ) ∧ item.trimEnd = ((50 : ℤ) : ℚ) ∧ 0 < item.duration :=
  let ⟨⟨item0, g1, _, _, _, _, _, _, g8, _⟩, _, item, h1, _, h3, h4, _, _, _, h8⟩ :=
    trim_values_unchecked sampleTrack reversedTrimForm [] "id1" 10 50 (by decide) (by decide)
  ⟨⟨item0, g1, g8 50 10 (by decide) rfl rfl⟩, item, h1, h3, h4, h8⟩

/-- C20, the claim as written fails: with trim start 50 and trim end 10 the
handler appends an item whose duration is -40. -/
theorem trim_validation_counterexample :
    ∃ item, (confirmTrackClick (some sampleTrack) reversedTrimForm [] "id1").1 = [item] ∧
      item.trimStart = 50 ∧ item.trimEnd = 10 ∧ item.duration = -40 := by
  refine ⟨_, rfl, ?_, ?_, ?_⟩
  · show orElse (Option.map (fun n : ℤ => (n : ℚ)) (some 50)) 0 = 50
    norm_num [orElse]
  · show orElse (Option.map (fun n : ℤ => (n : ℚ)) (some 10)) sampleTrack.duration = 10
    norm_num [orElse]
  · show orElse (Option.map (fun n : ℤ => (n : ℚ)) (some 10)) sampleTrack.duration -
      orElse (Option.map (fun n : ℤ => (n : ℚ)) (some 50)) 0 = -40
    norm_num [orElse]

/-! ## Auxiliary facts about sessions, seeking and edits -/

theorem stopPlayback_youtubeReady (s : PlayerState) :
    (stopPlayback s).youtubeReady = s.youtubeReady := by
  obtain ⟨l, c, pi, yp, ta, yr, ts, n⟩ := s
  cases yp <;> cases ta <;> cases pi <;> rfl

/-- What `stopPlayback` leaves behind: no YouTube player, no progress
interval (its timer is gone from the pending timers), and a paused speech
element. -/
theorem stopPlayback_stops (s : PlayerState) :
    (stopPlayback s).youtubePlayer = none ∧
    (stopPlayback s).playbackInterval = none ∧
    (∀ a, (stopPlayback s).ttsAudioElement = some a → a.paused = true) ∧
    (∀ id, s.playbackInterval = some id → ∀ t ∈ (stopPlayback s).timers, t.id ≠ id) := by
  obtain ⟨l, c, pi, yp, ta, yr, ts, n⟩ := s
  cases yp <;> cases ta <;> cases pi <;>
    simp [stopPlayback, clearTimer]

/-- With the API ready, `playItem` on an external clip creates the player
with the floored start position. -/
theorem playItem_youtubePlayer (s : PlayerState) (item : TimelineItem) (offset : ℚ)
    (b : Broadcast) (ht : item.type = "youtube") (hr : s.youtubeReady = true) :
    (playItem s item (JSNumber.val offset) b).youtubePlayer =
      some { videoId := item.videoId,
             start := JSNumber.val ((⌊item.trimStart + offset⌋ : ℤ) : ℚ),
             broadcast := b } := by
  have hr2 := stopPlayback_youtubeReady s
  unfold playItem
  simp only [ht, if_true]
  unfold playYouTubeTrack
  simp only [hr2, hr, Bool.not_true, startProgressMonitoring, setTimer]
  simp [JSNumber.addLeft, JSNumber.floor]

/-- The re-sync callback re-invokes `startSyncedPlayback` when the listener is
still tuned in to the broadcast. -/
theorem fireTimer_resync_listening (s : PlayerState) (timer : Timer) (b : Broadcast) (now : ℤ)
    (ha : timer.action = TimerAction.resync b) (hl : s.listeningToBroadcast = some b.id) :
    fireTimer s timer now =
      (startSyncedPlayback { s with timers := s.timers.filter (fun t => t.id != timer.id) }
        b now).2 := by
  unfold fireTimer
  rw [ha]
  simp only [hl, if_true]

/-- The re-sync callback does nothing but spend its timer when
`state.listeningToBroadcast` is not the broadcast. -/
theorem fireTimer_resync_not_listening (s : PlayerState) (timer : Timer) (b : Broadcast)
    (now : ℤ) (ha : timer.action = TimerAction.resync b)
    (hl : s.listeningToBroadcast ≠ some b.id) :
    fireTimer s timer now =
      { s with timers := s.timers.filter (fun t => t.id != timer.id) } := by
  unfold fireTimer
  rw [ha]
  simp only [hl, if_false]

/-- At 5 s the sample clip is resolved at offset 5. -/
theorem resolve_clip_at_five (s : PlayerState) :
    startSyncedPlayback s (sampleBroadcast false 0 [sampleClip 120, sampleSpeech 8]) 5000 =
      (Outcome.play 0 (sampleClip 120) (JSNumber.val 5),
        playItem s (sampleClip 120) (JSNumber.val 5)
          (sampleBroadcast false 0 [sampleClip 120, sampleSpeech 8])) := by
  norm_num [startSyncedPlayback, sampleBroadcast, sampleClip, sampleSpeech, elapsedSeconds,
    timelinePosition, findCurrentItem, JSNumber.sub]

/-- At 1 s the sample speech item is resolved at offset 1. -/
theorem resolve_speech_at_one (s : PlayerState) :
    startSyncedPlayback s (sampleBroadcast false 0 [sampleSpeech 8, sampleClip 120]) 1000 =
      (Outcome.play 0 (sampleSpeech 8) (JSNumber.val 1),
        playItem s (sampleSpeech 8) (JSNumber.val 1)
          (sampleBroadcast false 0 [sampleSpeech 8, sampleClip 120])) := by
  norm_num [startSyncedPlayback, sampleBroadcast, sampleClip, sampleSpeech, elapsedSeconds,
    timelinePosition, findCurrentItem, JSNumber.sub]

theorem resolve_clip_after_speech (s : PlayerState) :
    startSyncedPlayback s (sampleBroadcast false 0 [sampleSpeech 8, sampleClip 120]) 8100 =
      (Outcome.play 1 (sampleClip 120) (JSNumber.val (1 / 10)),
        playItem s (sampleClip 120) (JSNumber.val (1 / 10))
          (sampleBroadcast false 0 [sampleSpeech 8, sampleClip 120])) := by
  norm_num [startSyncedPlayback, sampleBroadcast, sampleClip, sampleSpeech, elapsedSeconds,
    timelinePosition, findCurrentItem, JSNumber.sub]

theorem swap_adjacent {α : Type} (l : List α) (k : Nat) (a b : α)
    (ha : l[k]? = some a) (hb : l[k + 1]? = some b) :
    l = l.take k ++ a :: b :: l.drop (k + 2) ∧
    (l.set k b).set (k + 1) a = l.take k ++ b :: a :: l.drop (k + 2) := by
  induction l generalizing k with
  | nil => simp at ha
  | cons x xs ih =>
    cases k with
    | zero =>
      cases xs with
      | nil => simp at hb
      | cons y ys =>
        simp only [List.getElem?_cons_zero, Option.some.injEq] at ha
        simp only [zero_add, List.getElem?_cons_succ, List.getElem?_cons_zero,
          Option.some.injEq] at hb
        subst ha hb
        simp
    | succ k =>
      simp only [List.getElem?_cons_succ] at ha hb
      obtain ⟨h1, h2⟩ := ih k ha hb
      constructor
      · simp only [List.take_succ_cons, List.drop_succ_cons, List.cons_append]
        rw [← h1]
      · simp only [List.set_cons_succ, List.take_succ_cons, List.drop_succ_cons,
          List.cons_append]
        rw [h2]

theorem swap_perm {α : Type} (l : List α) (i j : Nat) (a b : α)
    (ha : l[i]? = some a) (hb : l[j]? = some b) (hadj : j = i + 1 ∨ i = j + 1) :
    ((l.set i b).set j a).Perm l := by
  rcases hadj with h | h
  · subst h
    obtain ⟨h1, h2⟩ := swap_adjacent l i a b ha hb
    rw [h2]
    nth_rewrite 3 [h1]
    exact List.Perm.append_left _ (List.Perm.swap _ _ _)
  · subst h
    obtain ⟨h1, h2⟩ := swap_adjacent l j b a hb ha
    have hc : (l.set (j + 1) b).set j a = (l.set j a).set (j + 1) b :=
      List.set_comm b a l (by omega)
    rw [hc, h2]
    nth_rewrite 3 [h1]
    exact List.Perm.append_left _ (List.Perm.swap _ _ _)

theorem moveItem_swap (items : List TimelineItem) (index : Nat) (d : ℤ) (a b : TimelineItem)
    (ha : items[index]? = some a) (hb : items[((index : ℤ) + d).toNat]? = some b)
    (h0 : 0 ≤ (index : ℤ) + d) (h1 : (index : ℤ) + d < items.length) :
    moveItem items index d = (items.set index b).set ((index : ℤ) + d).toNat a := by
  unfold moveItem
  simp only
  rw [if_neg (by omega), ha, hb]

theorem totalDuration_take_le {items : List TimelineItem}
    (hpos : ∀ it ∈ items, 0 < it.duration) (k : Nat) :
    totalDuration (items.take k) ≤ totalDuration items := by
  induction items generalizing k with
  | nil => simp
  | cons it rest ih =>
    cases k with
    | zero =>
      simp only [List.take_zero, totalDuration_nil]
      exact totalDuration_nonneg hpos
    | succ k =>
      simp only [List.take_succ_cons, totalDuration_cons]
      have := ih (fun x hx => hpos x (List.mem_cons_of_mem _ hx)) k
      linarith

theorem totalDuration_take_lt {items : List TimelineItem}
    (hpos : ∀ it ∈ items, 0 < it.duration) {k : Nat} {item : TimelineItem}
    (hk : items[k]? = some item) :
    totalDuration (items.take k) < totalDuration items := by
  have h1 := totalDuration_take_succ hk
  have h2 := totalDuration_take_le hpos (k + 1)
  have h3 : 0 < item.duration := hpos item (List.mem_iff_getElem?.mpr ⟨k, hk⟩)
  linarith

theorem totalDuration_take_length (items : List TimelineItem) :
    totalDuration (items.take items.length) = totalDuration items := by
  rw [List.take_length]

/-- What a `play` outcome tells about the position. -/
theorem play_position {s : PlayerState} {b : Broadcast} {now : ℤ} {i : Nat}
    {item : TimelineItem} {off : JSNumber}
    (hplay : (startSyncedPlayback s b now).1 = Outcome.play i item off) :
    ∃ p : ℚ, timelinePosition b.is_looping (elapsedSeconds b now)
        (totalDuration (timelineOf b)) = some (JSNumber.val p) ∧
      (timelineOf b)[i]? = some item ∧
      off = JSNumber.val (p - totalDuration ((timelineOf b).take i)) := by
  by_cases hne : timelineOf b = []
  · rw [startSyncedPlayback_nil s b now hne] at hplay
    cases hplay
  · rw [startSyncedPlayback_eq s b now hne] at hplay
    cases hpos : timelinePosition b.is_looping (elapsedSeconds b now)
        (totalDuration (timelineOf b)) with
    | none => rw [hpos] at hplay; cases hplay
    | some position =>
      rw [hpos] at hplay
      simp only at hplay
      cases position with
      | NaN =>
        rw [findCurrentItem_nan] at hplay
        cases hplay
      | val p =>
        cases hfind : findCurrentItem (JSNumber.val p) (timelineOf b) 0 0 with
        | none => rw [hfind] at hplay; cases hplay
        | some r =>
          obtain ⟨i2, it, o⟩ := r
          rw [hfind] at hplay
          simp only [Outcome.play.injEq] at hplay
          obtain ⟨rfl, rfl, rfl⟩ := hplay
          obtain ⟨k, hk1, hk2, hk3, _, _⟩ := findCurrentItem_some hfind
          simp only [zero_add] at hk1 hk3
          subst hk1
          exact ⟨p, rfl, hk2, hk3⟩

/-- The outcome at a position that is the start of item `k`. -/
theorem play_at_boundary (s : PlayerState) (b : Broadcast) (now : ℤ) (k : Nat)
    (item : TimelineItem)
    (hpos : ∀ it ∈ timelineOf b, 0 < it.duration)
    (hk : (timelineOf b)[k]? = some item)
    (hp : timelinePosition b.is_looping (elapsedSeconds b now) (totalDuration (timelineOf b)) =
      some (JSNumber.val (totalDuration ((timelineOf b).take k)))) :
    (startSyncedPlayback s b now).1 = Outcome.play k item (JSNumber.val 0) := by
  have hne : timelineOf b ≠ [] := by
    intro h
    rw [h] at hk
    simp at hk
  rw [startSyncedPlayback_eq s b now hne, hp]
  have h := findCurrentItem_boundary hpos 0 0 k item hk
  simp only [zero_add] at h
  simp only [h]

/-- A non-negative elapsed time is a whole number of loops plus the floored
remainder. -/
theorem elapsed_split {e T : ℚ} (he : 0 ≤ e) (hT : 0 < T) :
    ∃ k : ℕ, e = (k : ℚ) * T + (e - T * (⌊e / T⌋ : ℚ)) := by
  have hfl : 0 ≤ ⌊e / T⌋ := Int.floor_nonneg.mpr (div_nonneg he (le_of_lt hT))
  refine ⟨⌊e / T⌋.toNat, ?_⟩
  have : ((⌊e / T⌋.toNat : ℕ) : ℚ) = ((⌊e / T⌋ : ℤ) : ℚ) := by
    have h := Int.toNat_of_nonneg hfl
    exact_mod_cast h
  rw [this]
  ring

theorem crusher_entry (i : Nat) (hi : i < 256) :
    (makeBitCrusherCurve 8)[i]? = some ((i : ℚ) / 128 - 1) := by
  rw [makeBitCrusherCurve_getElem? 8 i hi, crusher_quotient, jsRound_intCast]
  congr 1
  push_cast
  norm_num
  ring

/-! ## The engine and editing claims -/

/-- C21 (empty timeline at go-live). With an empty timeline `handleGoLive`
returns before its first `await`: it shows one alert, builds no broadcast
descriptor, inserts nothing, and leaves the application state (the current
broadcast and the player included) as it was. -/
theorem empty_timeline_go_live (supabase : Option (BroadcastData → Except String Broadcast))
    (st : AppState) (stationName stationDescription : String) (isLooping : Bool)
    (scheduledTime : String) (dateNow playNow : ℤ) (hempty : st.timelineItems = []) :
    (handleGoLive supabase st stationName stationDescription isLooping scheduledTime dateNow
      playNow).state = st ∧
    (handleGoLive supabase st stationName stationDescription isLooping scheduledTime dateNow
      playNow).descriptor = none ∧
    (handleGoLive supabase st stationName stationDescription isLooping scheduledTime dateNow
      playNow).inserts = [] ∧
    (handleGoLive supabase st stationName stationDescription isLooping scheduledTime dateNow
      playNow).awaited = false ∧
    (handleGoLive supabase st stationName stationDescription isLooping scheduledTime dateNow
      playNow).alerts.length = 1 := by
  unfold handleGoLive
  cases st.currentUser with
  | none => exact ⟨rfl, rfl, rfl, rfl, rfl⟩
  | some userId =>
    by_cases hname : stationName = ""
    · simp [hname]
    · simp [hname, hempty]

theorem empty_timeline_go_live_witness :
    (handleGoLive none emptyEditor "Station" "" false "" 0 0).state = emptyEditor ∧
    (handleGoLive none emptyEditor "Station" "" false "" 0 0).inserts = [] :=
  let h := empty_timeline_go_live none emptyEditor "Station" "" false "" 0 0 rfl
  ⟨h.1, h.2.2.1⟩

/-- C22, as the code has it. For a resolved item and offset, the YouTube
player (once the API is ready) is created with
`start = ⌊trimStart + offset⌋`, whole seconds, and the speech element of an
item with an audio URL is started with `currentTime = offset`. -/
theorem seek_position (s : PlayerState) (item : TimelineItem) (offset : ℚ) (b : Broadcast) :
    (item.type = "youtube" → s.youtubeReady = true →
      (playItem s item (JSNumber.val offset) b).youtubePlayer =
        some { videoId := item.videoId,
               start := JSNumber.val ((⌊item.trimStart + offset⌋ : ℤ) : ℚ),
               broadcast := b }) ∧
    (∀ url, item.type = "tts" → item.audioUrl = some url → url ≠ "" →
      ∃ a, (playItem s item (JSNumber.val offset) b).ttsAudioElement = some a ∧
        a.currentTime = JSNumber.val offset ∧ a.src = url ∧ a.paused = false) := by
  constructor
  · intro ht hr
    exact playItem_youtubePlayer s item offset b ht hr
  · intro url ht hu hne
    unfold playItem
    have h1 : ¬ item.type = "youtube" := by rw [ht]; decide
    simp only [h1, ht, if_false, if_true]
    unfold playTTSTrack
    simp only [hu, hne, if_false, startProgressMonitoring, setTimer]
    exact ⟨_, rfl, rfl, rfl, rfl⟩

theorem seek_position_witness :
    ∃ a, (playItem idleState (sampleSpeech 8) (JSNumber.val 5)
        (sampleBroadcast true 0 [sampleClip 120, sampleSpeech 8])).ttsAudioElement = some a ∧
      a.currentTime = JSNumber.val 5 :=
  let ⟨a, h1, h2, _⟩ := (seek_position idleState (sampleSpeech 8) 5
    (sampleBroadcast true 0 [sampleClip 120, sampleSpeech 8])).2 "blob:speech" rfl rfl
    (by decide)
  ⟨a, h1, h2⟩

/-- C22, the claim as written fails: at offset 2.5 of a clip trimmed from 0
the YouTube player is started at second 2, not at 2.5. -/
theorem seek_position_counterexample :
    (startSyncedPlayback (onYouTubeIframeAPIReady idleState)
      (sampleBroadcast false 0 [sampleClip 120, sampleSpeech 8]) 2500).1 =
      Outcome.play 0 (sampleClip 120) (JSNumber.val (5 / 2)) ∧
    (sampleClip 120).trimStart + 5 / 2 = 5 / 2 ∧
    (startSyncedPlayback (onYouTubeIframeAPIReady idleState)
      (sampleBroadcast false 0 [sampleClip 120, sampleSpeech 8]) 2500).2.youtubePlayer =
      some { videoId := "v", start := JSNumber.val 2,
             broadcast := sampleBroadcast false 0 [sampleClip 120, sampleSpeech 8] } := by
  have h : ∀ s, startSyncedPlayback s (sampleBroadcast false 0 [sampleClip 120, sampleSpeech 8])
      2500 = (Outcome.play 0 (sampleClip 120) (JSNumber.val (5 / 2)),
        playItem s (sampleClip 120) (JSNumber.val (5 / 2))
          (sampleBroadcast false 0 [sampleClip 120, sampleSpeech 8])) := by
    intro s
    norm_num [startSyncedPlayback, sampleBroadcast, sampleClip, sampleSpeech, elapsedSeconds,
      timelinePosition, findCurrentItem, JSNumber.sub]
  refine ⟨by rw [h], by norm_num [sampleClip], ?_⟩
  rw [h, playItem_youtubePlayer _ _ _ _ rfl rfl]
  have hf : ⌊(sampleClip 120).trimStart + 5 / 2⌋ = 2 := by
    rw [Int.floor_eq_iff]
    norm_num [sampleClip]
  rw [hf]
  rfl

/-- C23, the code at a failing input. A listener tunes in while the YouTube
API is not ready, so `playYouTubeTrack` schedules its retry; the listener
stops, and the retry timer is still pending; the API becomes ready and the
timer fires: a YouTube player and a progress timer now run although nobody is
listening. -/
theorem retry_timer_outlives_session :
    (runEvents idleState
      [PlayerEvent.tuneIn (sampleBroadcast false 0 [sampleClip 120, sampleSpeech 8]) 5000,
       PlayerEvent.stopListening]).timers =
      [{ id := 1, delayMs := 500, repeating := false,
         action := TimerAction.retryYouTube (sampleClip 120) (JSNumber.val 5)
           (sampleBroadcast false 0 [sampleClip 120, sampleSpeech 8]) }] ∧
    (runEvents idleState
      [PlayerEvent.tuneIn (sampleBroadcast false 0 [sampleClip 120, sampleSpeech 8]) 5000,
       PlayerEvent.stopListening, PlayerEvent.apiReady,
       PlayerEvent.timerFires 1 6000]).listeningToBroadcast = none ∧
    (runEvents idleState
      [PlayerEvent.tuneIn (sampleBroadcast false 0 [sampleClip 120, sampleSpeech 8]) 5000,
       PlayerEvent.stopListening, PlayerEvent.apiReady,
       PlayerEvent.timerFires 1 6000]).youtubePlayer =
      some { videoId := "v", start := JSNumber.val 5,
             broadcast := sampleBroadcast false 0 [sampleClip 120, sampleSpeech 8] } ∧
    (runEvents idleState
      [PlayerEvent.tuneIn (sampleBroadcast false 0 [sampleClip 120, sampleSpeech 8]) 5000,
       PlayerEvent.stopListening, PlayerEvent.apiReady,
       PlayerEvent.timerFires 1 6000]).playbackInterval = some 2 := by
  have h1 : tuneInToBroadcast idleState
      (sampleBroadcast false 0 [sampleClip 120, sampleSpeech 8]) 5000 =
      { listeningToBroadcast := some "b1", currentBroadcastId := none,
        playbackInterval := none, youtubePlayer := none, ttsAudioElement := none,
        youtubeReady := false,
        timers := [Timer.mk 1 500 false (TimerAction.retryYouTube (sampleClip 120)
          (JSNumber.val 5) (sampleBroadcast false 0 [sampleClip 120, sampleSpeech 8]))],
        nextTimerId := 2 } := by
    unfold tuneInToBroadcast
    simp only [resolve_clip_at_five]
    rfl
  simp only [runEvents, List.foldl_cons, List.foldl_nil, applyEvent, h1]
  refine ⟨rfl, ?_, ?_, ?_⟩
  · rfl
  · simp [stopListening, stopPlayback, onYouTubeIframeAPIReady, idleState, fireTimer,
      playYouTubeTrack, startProgressMonitoring, setTimer, sampleClip, JSNumber.addLeft,
      JSNumber.floor]
  · rfl

/-- C24, the code at a failing input. The broadcaster's monitor is started
with `startBroadcastPlayback` and its first item, the speech item, ends. The
re-sync timer fires at 8.1 s, where `startSyncedPlayback` would play the clip
at offset 0.1, but it is not invoked: no player is started. In the same
sequence started with `tuneInToBroadcast` the clip player is started. -/
theorem monitor_resync_skipped :
    (startSyncedPlayback
      (runEvents idleState
        [PlayerEvent.apiReady,
         PlayerEvent.startBroadcast (sampleBroadcast false 0 [sampleSpeech 8, sampleClip 120])
           1000,
         PlayerEvent.ttsEnded])
      (sampleBroadcast false 0 [sampleSpeech 8, sampleClip 120]) 8100).1 =
      Outcome.play 1 (sampleClip 120) (JSNumber.val (1 / 10)) ∧
    (runEvents idleState
      [PlayerEvent.apiReady,
       PlayerEvent.startBroadcast (sampleBroadcast false 0 [sampleSpeech 8, sampleClip 120])
         1000,
       PlayerEvent.ttsEnded]).timers.map (fun t => t.id) = [1, 2] ∧
    (runEvents idleState
      [PlayerEvent.apiReady,
       PlayerEvent.startBroadcast (sampleBroadcast false 0 [sampleSpeech 8, sampleClip 120])
         1000,
       PlayerEvent.ttsEnded,
       PlayerEvent.timerFires 2 8100]).youtubePlayer = none ∧
    (runEvents idleState
      [PlayerEvent.apiReady,
       PlayerEvent.startBroadcast (sampleBroadcast false 0 [sampleSpeech 8, sampleClip 120])
         1000,
       PlayerEvent.ttsEnded,
       PlayerEvent.timerFires 2 8100]).timers.map (fun t => t.id) = [1] ∧
    (runEvents idleState
      [PlayerEvent.apiReady,
       PlayerEvent.tuneIn (sampleBroadcast false 0 [sampleSpeech 8, sampleClip 120]) 1000,
       PlayerEvent.ttsEnded,
       PlayerEvent.timerFires 2 8100]).youtubePlayer =
      some { videoId := "v", start := JSNumber.val 0,
             broadcast := sampleBroadcast false 0 [sampleSpeech 8, sampleClip 120] } := by
  refine ⟨by rw [resolve_clip_after_speech], ?_, ?_, ?_, ?_⟩
  · simp only [runEvents, List.foldl_cons, List.foldl_nil, applyEvent, startBroadcastPlayback,
      resolve_speech_at_one]
    rfl
  · simp only [runEvents, List.foldl_cons, List.foldl_nil, applyEvent, startBroadcastPlayback,
      resolve_speech_at_one]
    rfl
  · simp only [runEvents, List.foldl_cons, List.foldl_nil, applyEvent, startBroadcastPlayback,
      resolve_speech_at_one]
    rfl
  · have h1 : tuneInToBroadcast (onYouTubeIframeAPIReady idleState)
        (sampleBroadcast false 0 [sampleSpeech 8, sampleClip 120]) 1000 =
        playItem { onYouTubeIframeAPIReady idleState with listeningToBroadcast := some "b1" }
          (sampleSpeech 8) (JSNumber.val 1)
          (sampleBroadcast false 0 [sampleSpeech 8, sampleClip 120]) := by
      unfold tuneInToBroadcast
      simp only [resolve_speech_at_one]
      rfl
    simp only [runEvents, List.foldl_cons, List.foldl_nil, applyEvent, h1]
    have h2 : (ttsEnded (playItem
        { onYouTubeIframeAPIReady idleState with listeningToBroadcast := some "b1" }
        (sampleSpeech 8) (JSNumber.val 1)
        (sampleBroadcast false 0 [sampleSpeech 8, sampleClip 120]))).timers.find?
          (fun t => t.id == 2) =
        some (Timer.mk 2 100 false
          (TimerAction.resync (sampleBroadcast false 0 [sampleSpeech 8, sampleClip 120]))) := by
      rfl
    rw [h2]
    simp only []
    rw [fireTimer_resync_listening _ _ _ _ rfl rfl, resolve_clip_after_speech,
      playItem_youtubePlayer _ _ _ _ rfl rfl]
    have hf : ⌊(sampleClip 120).trimStart + 1 / 10⌋ = 0 := by
      rw [Int.floor_eq_iff]
      norm_num [sampleClip]
    rw [hf]
    rfl

/-- C25 (move by one position). For a position `index` of the timeline and a
direction `d` of -1 or +1, `moveItem` leaves the timeline unchanged when
`index + d` is below 0 or not below the length, and otherwise exchanges the
items at `index` and `index + d` and leaves every other position as it was;
the result is a permutation of the input, so the length, the durations and
the total duration are preserved. -/
theorem move_by_one (items : List TimelineItem) (index : Nat) (d : ℤ)
    (hi : index < items.length) (hd : d = -1 ∨ d = 1) :
    (((index : ℤ) + d < 0 ∨ (items.length : ℤ) ≤ (index : ℤ) + d) →
      moveItem items index d = items) ∧
    ((0 ≤ (index : ℤ) + d ∧ (index : ℤ) + d < items.length) →
      (moveItem items index d)[index]? = items[((index : ℤ) + d).toNat]? ∧
      (moveItem items index d)[((index : ℤ) + d).toNat]? = items[index]? ∧
      ∀ j, j ≠ index → j ≠ ((index : ℤ) + d).toNat →
        (moveItem items index d)[j]? = items[j]?) ∧
    (moveItem items index d).Perm items ∧
    (moveItem items index d).length = items.length ∧
    ((moveItem items index d).map (fun item => item.duration)).Perm
      (items.map (fun item => item.duration)) ∧
    totalDuration (moveItem items index d) = totalDuration items := by
  have hout : ((index : ℤ) + d < 0 ∨ (items.length : ℤ) ≤ (index : ℤ) + d) →
      moveItem items index d = items := by
    intro h
    unfold moveItem
    simp only
    rw [if_pos (by omega)]
  have hperm : (moveItem items index d).Perm items := by
    by_cases hr : (index : ℤ) + d < 0 ∨ (items.length : ℤ) ≤ (index : ℤ) + d
    · rw [hout hr]
    · have h0 : 0 ≤ (index : ℤ) + d := by omega
      have h1 : (index : ℤ) + d < items.length := by omega
      have hn : ((index : ℤ) + d).toNat < items.length := by omega
      have ha : items[index]? = some items[index] := List.getElem?_eq_getElem hi
      have hb : items[((index : ℤ) + d).toNat]? = some items[((index : ℤ) + d).toNat] :=
        List.getElem?_eq_getElem hn
      rw [moveItem_swap items index d _ _ ha hb h0 h1]
      exact swap_perm items index _ _ _ ha hb (by omega)
  refine ⟨hout, ?_, hperm, hperm.length_eq, hperm.map _, ?_⟩
  · rintro ⟨h0, h1⟩
    have hn : ((index : ℤ) + d).toNat < items.length := by omega
    have hne : index ≠ ((index : ℤ) + d).toNat := by omega
    have ha : items[index]? = some items[index] := List.getElem?_eq_getElem hi
    have hb : items[((index : ℤ) + d).toNat]? = some items[((index : ℤ) + d).toNat] :=
      List.getElem?_eq_getElem hn
    rw [moveItem_swap items index d _ _ ha hb h0 h1]
    refine ⟨?_, ?_, ?_⟩
    · rw [List.getElem?_set_ne (Ne.symm hne), List.getElem?_set_self hi, hb]
    · rw [List.getElem?_set_self (by rw [List.length_set]; exact hn), ha]
    · intro j hj1 hj2
      rw [List.getElem?_set_ne (Ne.symm hj2), List.getElem?_set_ne (Ne.symm hj1)]
  · rw [totalDuration_eq_sum, totalDuration_eq_sum]
    exact (hperm.map _).sum_eq

theorem move_by_one_witness :
    (moveItem [sampleClip 10, sampleSpeech 5] 0 1)[0]? =
      [sampleClip 10, sampleSpeech 5][((0 : ℕ) + (1 : ℤ)).toNat]? ∧
    totalDuration (moveItem [sampleClip 10, sampleSpeech 5] 0 1) =
      totalDuration [sampleClip 10, sampleSpeech 5] :=
  let h := move_by_one [sampleClip 10, sampleSpeech 5] 0 1 (by decide) (Or.inr rfl)
  ⟨(h.2.1 ⟨by decide, by decide⟩).1, h.2.2.2.2.2⟩

/-- C26 (reorder by drag). For a timeline of length `n` and distinct
positions `d` and `p`, dropping the item dragged from `d` onto `p` gives a
timeline of length `n` with the dragged item at index `p` and the other items
in their former order; when `d = p` or nothing is dragged the timeline is
unchanged. -/
theorem reorder_by_drag (items : List TimelineItem) (d p : Nat)
    (hd : d < items.length) (hp : p < items.length) (hne : d ≠ p) :
    (handleDrop items (some d) p).length = items.length ∧
    (handleDrop items (some d) p)[p]? = items[d]? ∧
    (handleDrop items (some d) p).eraseIdx p = items.eraseIdx d ∧
    handleDrop items (some p) p = items ∧
    handleDrop items none p = items := by
  have hlen : (items.eraseIdx d).length = items.length - 1 := by
    rw [List.length_eraseIdx, if_pos hd]
  have hmin : min p (items.eraseIdx d).length = p := by
    rw [hlen]; omega
  have hple : p ≤ (items.eraseIdx d).length := by rw [hlen]; omega
  have hdrop : handleDrop items (some d) p = (items.eraseIdx d).insertIdx p items[d] := by
    unfold handleDrop
    simp only [hne, ne_eq, not_false_eq_true, if_true, List.getElem?_eq_getElem hd, hmin]
  refine ⟨?_, ?_, ?_, ?_, rfl⟩
  · rw [hdrop, List.length_insertIdx _ _ hple, hlen]; omega
  · rw [hdrop, List.getElem?_eq_getElem hd]
    have hlt : p < ((items.eraseIdx d).insertIdx p items[d]).length := by
      rw [List.length_insertIdx _ _ hple]; omega
    rw [List.getElem?_eq_getElem hlt, List.getElem_insertIdx_self _ _ _ hple]
  · rw [hdrop, List.eraseIdx_insertIdx]
  · unfold handleDrop
    simp

theorem reorder_by_drag_witness :
    (handleDrop [sampleClip 10, sampleSpeech 5, sampleClip 7] (some 0) 2).length = 3 ∧
    (handleDrop [sampleClip 10, sampleSpeech 5, sampleClip 7] (some 0) 2)[2]? =
      [sampleClip 10, sampleSpeech 5, sampleClip 7][0]? :=
  let h := reorder_by_drag [sampleClip 10, sampleSpeech 5, sampleClip 7] 0 2 (by decide)
    (by decide) (by decide)
  ⟨h.1, h.2.1⟩

/-- C27 (item-to-item continuity). In a timeline of positive-duration items,
when `startSyncedPlayback` resolves item `i` at offset `o` at some
`elapsed ≥ 0`, resolving again at `elapsed + (duration_i - o)` yields item
`i + 1` at offset 0; after the last item it yields the first item at offset 0
when looping and 'ended' when not looping. -/
theorem item_continuity (s s2 : PlayerState) (b : Broadcast) (now1 now2 : ℤ) (i : Nat)
    (item : TimelineItem) (o : ℚ)
    (hpos : ∀ it ∈ timelineOf b, 0 < it.duration)
    (h0 : 0 ≤ elapsedSeconds b now1)
    (hplay : (startSyncedPlayback s b now1).1 = Outcome.play i item (JSNumber.val o))
    (hnext : elapsedSeconds b now2 = elapsedSeconds b now1 + (item.duration - o)) :
    (∀ next, (timelineOf b)[i + 1]? = some next →
      (startSyncedPlayback s2 b now2).1 = Outcome.play (i + 1) next (JSNumber.val 0)) ∧
    ((timelineOf b).length = i + 1 → b.is_looping = true →
      ∃ first, (timelineOf b)[0]? = some first ∧
        (startSyncedPlayback s2 b now2).1 = Outcome.play 0 first (JSNumber.val 0)) ∧
    ((timelineOf b).length = i + 1 → b.is_looping = false →
      (startSyncedPlayback s2 b now2).1 = Outcome.ended) := by
  obtain ⟨p, hp, hitem, hoff⟩ := play_position hplay
  simp only [JSNumber.val.injEq] at hoff
  have hsucc := totalDuration_take_succ hitem
  have hne : timelineOf b ≠ [] := by
    intro h
    rw [h] at hitem
    simp at hitem
  have hT : 0 < totalDuration (timelineOf b) :=
    lt_of_le_of_lt (totalDuration_nonneg
      (fun x hx => hpos x (List.mem_of_mem_take hx))) (totalDuration_take_lt hpos hitem)
  -- the new elapsed time in terms of the old position
  have he2 : elapsedSeconds b now2 =
      elapsedSeconds b now1 - p + totalDuration ((timelineOf b).take (i + 1)) := by
    rw [hnext, hsucc, hoff]; ring
  cases hloop : b.is_looping with
  | false =>
    rw [hloop] at hp
    have hp1 : p = elapsedSeconds b now1 := by
      unfold timelinePosition at hp
      simp only [Bool.false_eq_true, if_false] at hp
      split_ifs at hp
      simp only [Option.some.injEq, JSNumber.val.injEq] at hp
      exact hp.symm
    have he3 : elapsedSeconds b now2 = totalDuration ((timelineOf b).take (i + 1)) := by
      rw [he2, hp1]; ring
    refine ⟨?_, ?_, ?_⟩
    · intro next hnx
      apply play_at_boundary s2 b now2 (i + 1) next hpos hnx
      have hlt := totalDuration_take_lt hpos hnx
      rw [hloop, he3]
      unfold timelinePosition
      simp only [Bool.false_eq_true, if_false]
      rw [if_neg]
      simp only [JSNumber.ge_val, not_le]
      exact hlt
    · intro _ h
      cases h
    · intro hlen _
      rw [startSyncedPlayback_eq s2 b now2 hne, hloop, he3, ← hlen, totalDuration_take_length]
      have : timelinePosition false (totalDuration (timelineOf b))
          (totalDuration (timelineOf b)) = none := by
        simp [timelinePosition]
      rw [this]
  | true =>
    rw [hloop] at hp
    have hp1 : p = elapsedSeconds b now1 -
        totalDuration (timelineOf b) *
          (⌊elapsedSeconds b now1 / totalDuration (timelineOf b)⌋ : ℚ) := by
      unfold timelinePosition at hp
      simp only [if_true] at hp
      rw [jsRem_of_nonneg h0 hT] at hp
      simp only [Option.some.injEq, JSNumber.val.injEq] at hp
      exact hp.symm
    obtain ⟨k, hk⟩ := elapsed_split h0 hT
    rw [← hp1] at hk
    have he3 : elapsedSeconds b now2 = (k : ℚ) * totalDuration (timelineOf b) +
        totalDuration ((timelineOf b).take (i + 1)) := by
      rw [he2]
      nth_rewrite 1 [hk]
      ring
    have hnn : 0 ≤ totalDuration ((timelineOf b).take (i + 1)) :=
      totalDuration_nonneg (fun x hx => hpos x (List.mem_of_mem_take hx))
    refine ⟨?_, ?_, ?_⟩
    · intro next hnx
      apply play_at_boundary s2 b now2 (i + 1) next hpos hnx
      have hlt := totalDuration_take_lt hpos hnx
      rw [hloop, he3]
      unfold timelinePosition
      simp only [if_true]
      rw [jsRem_loops k hnn hlt]
    · intro hlen _
      cases htl : timelineOf b with
      | nil => exact absurd htl hne
      | cons first rest =>
        refine ⟨first, by simp, ?_⟩
        apply play_at_boundary s2 b now2 0 first hpos (by rw [htl]; simp)
        rw [hloop, he3, ← hlen, totalDuration_take_length]
        have e : (k : ℚ) * totalDuration (timelineOf b) + totalDuration (timelineOf b) =
            ((k + 1 : ℕ) : ℚ) * totalDuration (timelineOf b) + 0 := by
          push_cast; ring
        rw [e]
        unfold timelinePosition
        simp only [if_true]
        rw [jsRem_loops (k + 1) (le_refl 0) hT]
        simp
    · intro _ h
      cases h

theorem item_continuity_witness :
    (startSyncedPlayback idleState (sampleBroadcast false 0 [sampleClip 120, sampleSpeech 8]) 120000).1 =
      Outcome.play 1 (sampleSpeech 8) (JSNumber.val 0) :=
  (item_continuity idleState idleState (sampleBroadcast false 0 [sampleClip 120, sampleSpeech 8]) 5000 120000 0 (sampleClip 120) 5
    (by
      intro it hit
      simp only [timelineOf, sampleBroadcast, List.mem_cons, List.mem_singleton,
        List.not_mem_nil, or_false] at hit
      rcases hit with rfl | rfl <;> norm_num [sampleClip, sampleSpeech])
    (by norm_num [sampleBroadcast, elapsedSeconds])
    (by rw [resolve_clip_at_five])
    (by norm_num [sampleBroadcast, sampleClip, elapsedSeconds])).1 (sampleSpeech 8) rfl

/-- C28 (an item is always found). For a non-empty timeline of
positive-duration items and `elapsed ≥ 0` (below the total duration when not
looping), `startSyncedPlayback` finds a current item and plays it: the
'Could not find current item in timeline' branch is not taken. -/
theorem item_always_found (s : PlayerState) (b : Broadcast) (now : ℤ)
    (hne : timelineOf b ≠ [])
    (hpos : ∀ it ∈ timelineOf b, 0 < it.duration)
    (h0 : 0 ≤ elapsedSeconds b now)
    (hend : b.is_looping = false → elapsedSeconds b now < totalDuration (timelineOf b)) :
    (startSyncedPlayback s b now).1 ≠ Outcome.notFound ∧
    ∃ i item o, (startSyncedPlayback s b now).1 = Outcome.play i item (JSNumber.val o) ∧
      (timelineOf b)[i]? = some item := by
  have hT : 0 < totalDuration (timelineOf b) := by
    cases htl : timelineOf b with
    | nil => exact absurd htl hne
    | cons first rest =>
      have h1 : 0 < first.duration := hpos first (by rw [htl]; exact List.mem_cons_self _ _)
      have h2 : 0 ≤ totalDuration rest :=
        totalDuration_nonneg (fun x hx => hpos x (by rw [htl]; exact List.mem_cons_of_mem _ hx))
      rw [totalDuration_cons]
      linarith
  have hposn : ∃ p : ℚ, timelinePosition b.is_looping (elapsedSeconds b now)
      (totalDuration (timelineOf b)) = some (JSNumber.val p) ∧
      p < totalDuration (timelineOf b) := by
    cases hloop : b.is_looping with
    | false =>
      have hlt := hend hloop
      refine ⟨elapsedSeconds b now, ?_, hlt⟩
      unfold timelinePosition
      simp only [Bool.false_eq_true, if_false]
      rw [if_neg]
      simp only [JSNumber.ge_val, not_le]
      exact hlt
    | true =>
      refine ⟨_, ?_, (floor_rem_bounds (elapsedSeconds b now) hT).2⟩
      unfold timelinePosition
      simp only [if_true]
      rw [jsRem_of_nonneg h0 hT]
  obtain ⟨p, hp, hlt⟩ := hposn
  obtain ⟨r, hr⟩ := findCurrentItem_isSome (p := p) 0 0 hne (by linarith)
  obtain ⟨i, item, off⟩ := r
  obtain ⟨k, hk1, hk2, hk3, _, _⟩ := findCurrentItem_some hr
  simp only [zero_add] at hk1 hk3
  subst hk1
  have hres : (startSyncedPlayback s b now).1 = Outcome.play i item off := by
    rw [startSyncedPlayback_eq s b now hne, hp]
    simp only [hr]
  refine ⟨?_, i, item, p - totalDuration (List.take i (timelineOf b)), ?_, hk2⟩
  · rw [hres]
    intro h
    cases h
  · rw [hres, hk3]

theorem item_always_found_witness :
    (startSyncedPlayback idleState (sampleBroadcast false 0 [sampleClip 120, sampleSpeech 8]) 5000).1 ≠ Outcome.notFound :=
  (item_always_found idleState (sampleBroadcast false 0 [sampleClip 120, sampleSpeech 8]) 5000
    (by simp [timelineOf, sampleBroadcast])
    (by
      intro it hit
      simp only [timelineOf, sampleBroadcast, List.mem_cons, List.mem_singleton,
        List.not_mem_nil, or_false] at hit
      rcases hit with rfl | rfl <;> norm_num [sampleClip, sampleSpeech])
    (by norm_num [sampleBroadcast, elapsedSeconds])
    (by
      intro _
      norm_num [timelineOf, sampleBroadcast, sampleClip, sampleSpeech, elapsedSeconds])).1

/-- C29 (the 8-bit crusher table is the identity on its grid). For every `i`
below 256, entry `i` of `makeBitCrusherCurve 8` is its own table input
`i / 256 * 2 - 1 = i / 128 - 1`, a multiple of `2^-8`; the table is strictly
increasing, starts at -1, ends at 127/128 and stays below 1. -/
theorem crusher_identity (i : Nat) (hi : i < 256) :
    (makeBitCrusherCurve 8)[i]? = some (((i : ℚ) / 256) * 2 - 1) ∧
    ((i : ℚ) / 256) * 2 - 1 = (i : ℚ) / 128 - 1 ∧
    (∃ m : ℤ, ((i : ℚ) / 256) * 2 - 1 = (m : ℚ) * (1 / 2) ^ 8) ∧
    (∀ (j : ℕ) (x y : ℚ), i < j → j < 256 → (makeBitCrusherCurve 8)[i]? = some x →
      (makeBitCrusherCurve 8)[j]? = some y → x < y) ∧
    (makeBitCrusherCurve 8)[(0 : ℕ)]? = some (-1) ∧
    (makeBitCrusherCurve 8)[(255 : ℕ)]? = some (127 / 128) ∧
    (∀ y, (makeBitCrusherCurve 8)[i]? = some y → y < 1) := by
  have hx : ((i : ℚ) / 256) * 2 - 1 = (i : ℚ) / 128 - 1 := by ring
  have hle : (i : ℚ) ≤ 255 := by
    have : i ≤ 255 := by omega
    exact_mod_cast this
  refine ⟨by rw [crusher_entry i hi, hx], hx, ⟨2 * (i : ℤ) - 256, ?_⟩, ?_, ?_, ?_, ?_⟩
  · push_cast
    norm_num
    ring
  · intro j x y hij hj hxi hyj
    rw [crusher_entry i hi] at hxi
    rw [crusher_entry j hj] at hyj
    simp only [Option.some.injEq] at hxi hyj
    subst hxi hyj
    have : (i : ℚ) < (j : ℚ) := by exact_mod_cast hij
    linarith
  · rw [crusher_entry 0 (by norm_num)]
    norm_num
  · rw [crusher_entry 255 (by norm_num)]
    norm_num
  · intro y hy
    rw [crusher_entry i hi] at hy
    simp only [Option.some.injEq] at hy
    subst hy
    linarith

theorem crusher_identity_witness :
    (makeBitCrusherCurve 8)[128]? = some (((128 : ℕ) : ℚ) / 256 * 2 - 1) :=
  (crusher_identity 128 (by decide)).1

end AIPR
